import Mathlib

/-
  Verification of the workspace session manager (src/zed/src/workspace.rs).

  The Rust source is shallowly embedded: HashMap/Vec state becomes
  association lists and lists, the foreground/background task split becomes
  explicit step functions on a Workspace record, and fallible handlers
  return Except. Definitions are translated from the source. The pane and
  pane-group internals (pane.rs and pane_group.rs are declared by the
  source but are not part of this tree) are modelled from the
  specification and marked as such in their doc comments.
-/

namespace Zed

/-- Association-list lookup returning the first binding of a key. This is
the lookup discipline of the HashMap values in the source, which hold at
most one binding per key. -/
def assocFind {κ α : Type} [DecidableEq κ] : List (κ × α) → κ → Option α
  | [], _ => none
  | (k, v) :: rest, key => if k = key then some v else assocFind rest key

/-- Association-list removal of the bindings of a key, matching HashMap
remove on maps that hold at most one binding per key. -/
def assocRemove {κ α : Type} [DecidableEq κ] : List (κ × α) → κ → List (κ × α)
  | [], _ => []
  | (k, v) :: rest, key =>
    if k = key then assocRemove rest key else (k, v) :: assocRemove rest key

theorem assocFind_eq_none {κ α : Type} [DecidableEq κ] (l : List (κ × α)) (key : κ)
    (h : ∀ p ∈ l, p.fst ≠ key) : assocFind l key = none := by
  induction l with
  | nil => rfl
  | cons hd tl ih =>
    obtain ⟨k, v⟩ := hd
    have hk : k ≠ key := h (k, v) (List.mem_cons_self _ _)
    simp only [assocFind, if_neg hk]
    exact ih (fun p hp => h p (List.mem_cons_of_mem _ hp))

theorem assocFind_append {κ α : Type} [DecidableEq κ] (l m : List (κ × α)) (key : κ)
    (h : assocFind l key = none) : assocFind (l ++ m) key = assocFind m key := by
  induction l with
  | nil => rfl
  | cons hd tl ih =>
    obtain ⟨k, v⟩ := hd
    by_cases hk : k = key
    · simp [assocFind, if_pos hk] at h
    · simp only [assocFind, if_neg hk] at h ⊢
      exact ih h

theorem assocFind_singleton_self {κ α : Type} [DecidableEq κ] (key : κ) (v : α) :
    assocFind [(key, v)] key = some v := by
  simp [assocFind]

theorem assocRemove_eq_self {κ α : Type} [DecidableEq κ] (l : List (κ × α)) (key : κ)
    (h : ∀ p ∈ l, p.fst ≠ key) : assocRemove l key = l := by
  induction l with
  | nil => rfl
  | cons hd tl ih =>
    obtain ⟨k, v⟩ := hd
    have hk : k ≠ key := h (k, v) (List.mem_cons_self _ _)
    simp only [assocRemove, if_neg hk]
    rw [ih (fun p hp => h p (List.mem_cons_of_mem _ hp))]

theorem assocRemove_append {κ α : Type} [DecidableEq κ] (l m : List (κ × α)) (key : κ) :
    assocRemove (l ++ m) key = assocRemove l key ++ assocRemove m key := by
  induction l with
  | nil => rfl
  | cons hd tl ih =>
    obtain ⟨k, v⟩ := hd
    by_cases hk : k = key
    · simp only [List.cons_append, assocRemove, if_pos hk]
      exact ih
    · simp only [List.cons_append, assocRemove, if_neg hk]
      rw [show tl.append m = tl ++ m from rfl, ih]

/-! ## Collaboration session, sharing side (mod remote in workspace.rs)

The Peer Ref Table `rpc.state.shared_files : HashMap<FileHandle, HashMap<PeerId, usize>>`
is embedded as an association list keyed by the file id (a `FileHandle` is
identified by its numeric id; `close_file` locates entries by that id),
whose values are association lists from peer ids to open counts. -/

/-- Per-file reference counts: peer id mapped to its open count. -/
abbrev RefCounts := List (Nat × Nat)

/-- The Peer Ref Table: file id mapped to its per-peer reference counts. -/
abbrev SharedFiles := List (Nat × RefCounts)

/-- The sharing-side session state reached from the message handlers
(`rpc.state`): the set of shared worktree ids and the Peer Ref Table. -/
structure RpcState where
  sharedWorktrees : List Nat
  sharedFiles : SharedFiles
deriving Repr, DecidableEq

/-- `proto::OpenFile` request together with its envelope metadata. -/
structure OpenFileRequest where
  worktreeId : Nat
  path : String
  originalSenderId : Option Nat
deriving Repr, DecidableEq

/-- `proto::OpenFileResponse`. -/
structure OpenFileResponse where
  id : Nat
  mtime : Nat
deriving Repr, DecidableEq

/-- `proto::CloseFile` request together with its envelope metadata. -/
structure CloseFileRequest where
  id : Nat
  originalSenderId : Option Nat
deriving Repr, DecidableEq

/-- `state.shared_files.entry(file).or_insert(Default::default()).entry(peer_id).or_insert(0) += 1`
from `remote::open_file`: bump the count of one peer within one file entry,
creating either level on demand (an absent peer starts at 0 and is bumped
to 1). -/
def bumpPeer : RefCounts → Nat → RefCounts
  | [], peer => [(peer, 1)]
  | (p, c) :: rest, peer =>
    if p = peer then (p, c + 1) :: rest else (p, c) :: bumpPeer rest peer

/-- The table mutation performed by `remote::open_file` once the file is
resolved: increment the `(file, peer)` count, inserting missing entries. -/
def incrRef : SharedFiles → Nat → Nat → SharedFiles
  | [], fid, peer => [(fid, [(peer, 1)])]
  | (f, rc) :: rest, fid, peer =>
    if f = fid then (f, bumpPeer rc peer) :: rest
    else (f, rc) :: incrRef rest fid peer

/-- `if let Some(count) = ref_counts.get_mut(&peer_id) { *count -= 1; if *count == 0 { remove } }`
from `remote::close_file`: decrement the count of a present peer, removing
the peer entry when the count reaches zero; absent peers are untouched. -/
def decrPeer : RefCounts → Nat → RefCounts
  | [], _ => []
  | (p, c) :: rest, peer =>
    if p = peer then (if c - 1 = 0 then rest else (p, c - 1) :: rest)
    else (p, c) :: decrPeer rest peer

/-- The table mutation performed by `remote::close_file`: locate the
tracked file by id (`iter_mut().find(...)`) and apply the per-peer
decrement there; an unknown file id leaves the table untouched. -/
def decrFile : SharedFiles → Nat → Nat → SharedFiles
  | [], _, _ => []
  | (f, rc) :: rest, fid, peer =>
    if f = fid then (f, decrPeer rc peer) :: rest
    else (f, rc) :: decrFile rest fid peer

/-- `remote::open_file`: require an original sender id, resolve the shared
worktree, resolve the file (the resolver stands for
`worktree.file(&message.path, cx)`, which can fail), increment the
`(file, peer)` table entry, and reply with the file id and mtime. Every
failure aborts before the table is mutated and before any reply is sent. -/
def openFile (resolve : Nat → String → Option (Nat × Nat)) (st : RpcState)
    (req : OpenFileRequest) : Except String (RpcState × OpenFileResponse) :=
  match req.originalSenderId with
  | none => Except.error "missing original sender id"
  | some peerId =>
    if st.sharedWorktrees.contains req.worktreeId then
      match resolve req.worktreeId req.path with
      | none => Except.error "file resolution failed"
      | some (fid, mtime) =>
        Except.ok
          ({ st with sharedFiles := incrRef st.sharedFiles fid peerId },
           { id := fid, mtime := mtime })
    else
      Except.error ("worktree " ++ toString req.worktreeId ++ " not found")

/-- `remote::close_file`: require an original sender id, then decrement the
`(file, peer)` count; unknown file ids or absent peers are a silent no-op.
No reply is sent. -/
def closeFile (st : RpcState) (req : CloseFileRequest) : Except String RpcState :=
  match req.originalSenderId with
  | none => Except.error "missing original sender id"
  | some peerId =>
    Except.ok { st with sharedFiles := decrFile st.sharedFiles req.id peerId }

/-- Read the count recorded for a peer; 0 when the peer has no entry. -/
def peerCount (rc : RefCounts) (peer : Nat) : Nat :=
  match assocFind rc peer with
  | some c => c
  | none => 0

/-- Read the count recorded for `(fid, peer)`; 0 when either level of the
table has no entry. -/
def getCount (fs : SharedFiles) (fid peer : Nat) : Nat :=
  match assocFind fs fid with
  | some rc => peerCount rc peer
  | none => 0

/-- Whether the table holds an entry for `(fid, peer)`. -/
def hasPeerEntry (fs : SharedFiles) (fid peer : Nat) : Bool :=
  match assocFind fs fid with
  | some rc => (assocFind rc peer).isSome
  | none => false

/-- Invariant: every count stored in the Peer Ref Table is strictly
positive. -/
def PositiveTable (fs : SharedFiles) : Prop :=
  ∀ fr ∈ fs, ∀ pc ∈ fr.snd, 0 < pc.snd

/-- Well-formedness inherited from the HashMap representation: keys are
unique at both levels of the table. -/
def WfTable (fs : SharedFiles) : Prop :=
  (fs.map Prod.fst).Nodup ∧ ∀ fr ∈ fs, (fr.snd.map Prod.fst).Nodup

theorem assocFind_mem {κ α : Type} [DecidableEq κ] (l : List (κ × α)) (key : κ) (v : α)
    (h : assocFind l key = some v) : (key, v) ∈ l := by
  induction l with
  | nil => simp [assocFind] at h
  | cons hd tl ih =>
    obtain ⟨k, w⟩ := hd
    by_cases hk : k = key
    · simp only [assocFind, if_pos hk, Option.some.injEq] at h
      subst hk
      subst h
      exact List.mem_cons_self _ _
    · simp only [assocFind, if_neg hk] at h
      exact List.mem_cons_of_mem _ (ih h)

theorem assocFind_eq_none_of_not_mem_keys {κ α : Type} [DecidableEq κ]
    (l : List (κ × α)) (key : κ) (h : key ∉ l.map Prod.fst) : assocFind l key = none := by
  refine assocFind_eq_none l key fun p hp hfst => ?_
  exact h (hfst ▸ List.mem_map_of_mem Prod.fst hp)

theorem peerCount_bumpPeer (rc : RefCounts) (peer : Nat) :
    peerCount (bumpPeer rc peer) peer = peerCount rc peer + 1 := by
  induction rc with
  | nil => simp [bumpPeer, peerCount, assocFind]
  | cons hd tl ih =>
    obtain ⟨p, c⟩ := hd
    by_cases hp : p = peer
    · subst hp
      simp [bumpPeer, peerCount, assocFind]
    · simp only [bumpPeer, if_neg hp, peerCount, assocFind, hp, if_false] at ih ⊢
      exact ih

theorem getCount_incrRef (fs : SharedFiles) (fid peer : Nat) :
    getCount (incrRef fs fid peer) fid peer = getCount fs fid peer + 1 := by
  induction fs with
  | nil => simp [incrRef, getCount, assocFind, peerCount]
  | cons hd tl ih =>
    obtain ⟨f, rc⟩ := hd
    by_cases hf : f = fid
    · subst hf
      simp only [incrRef, if_pos rfl, getCount, assocFind]
      simpa using peerCount_bumpPeer rc peer
    · simp only [incrRef, if_neg hf, getCount, assocFind, hf, if_false] at ih ⊢
      exact ih

theorem mem_keys_bumpPeer (rc : RefCounts) (peer x : Nat)
    (h : x ∈ (bumpPeer rc peer).map Prod.fst) : x ∈ rc.map Prod.fst ∨ x = peer := by
  induction rc with
  | nil => simpa [bumpPeer] using h
  | cons hd tl ih =>
    obtain ⟨p, c⟩ := hd
    by_cases hp : p = peer
    · subst hp
      simp [bumpPeer] at h ⊢
      tauto
    · simp only [bumpPeer, if_neg hp, List.map_cons, List.mem_cons] at h ⊢
      rcases h with h | h
      · exact Or.inl (Or.inl h)
      · rcases ih h with h2 | h2
        · exact Or.inl (Or.inr h2)
        · exact Or.inr h2

theorem nodup_keys_bumpPeer (rc : RefCounts) (peer : Nat)
    (h : (rc.map Prod.fst).Nodup) : ((bumpPeer rc peer).map Prod.fst).Nodup := by
  induction rc with
  | nil => simp [bumpPeer]
  | cons hd tl ih =>
    obtain ⟨p, c⟩ := hd
    simp only [List.map_cons, List.nodup_cons] at h
    by_cases hp : p = peer
    · subst hp
      simpa [bumpPeer] using h
    · simp only [bumpPeer, if_neg hp, List.map_cons, List.nodup_cons]
      refine ⟨fun hmem => ?_, ih h.2⟩
      rcases mem_keys_bumpPeer tl peer p hmem with h2 | h2
      · exact h.1 h2
      · exact hp h2

theorem mem_keys_decrPeer (rc : RefCounts) (peer x : Nat)
    (h : x ∈ (decrPeer rc peer).map Prod.fst) : x ∈ rc.map Prod.fst := by
  induction rc with
  | nil => simp [decrPeer] at h
  | cons hd tl ih =>
    obtain ⟨p, c⟩ := hd
    by_cases hp : p = peer
    · subst hp
      simp only [decrPeer, if_pos rfl] at h
      by_cases hc : c - 1 = 0
      · simp only [if_pos hc] at h
        exact List.mem_cons_of_mem _ h
      · simp only [if_neg hc, List.map_cons, List.mem_cons] at h
        simpa using h
    · simp only [decrPeer, if_neg hp, List.map_cons, List.mem_cons] at h ⊢
      rcases h with h | h
      · exact Or.inl h
      · exact Or.inr (ih h)

theorem nodup_keys_decrPeer (rc : RefCounts) (peer : Nat)
    (h : (rc.map Prod.fst).Nodup) : ((decrPeer rc peer).map Prod.fst).Nodup := by
  induction rc with
  | nil => simp [decrPeer]
  | cons hd tl ih =>
    obtain ⟨p, c⟩ := hd
    simp only [List.map_cons, List.nodup_cons] at h
    by_cases hp : p = peer
    · subst hp
      by_cases hc : c - 1 = 0
      · simpa [decrPeer, hc] using h.2
      · simpa [decrPeer, hc] using h
    · simp only [decrPeer, if_neg hp, List.map_cons, List.nodup_cons]
      exact ⟨fun hmem => h.1 (mem_keys_decrPeer tl peer p hmem), ih h.2⟩

theorem peerCount_decrPeer (rc : RefCounts) (peer : Nat)
    (hnd : (rc.map Prod.fst).Nodup) :
    peerCount (decrPeer rc peer) peer = peerCount rc peer - 1 := by
  induction rc with
  | nil => simp [decrPeer, peerCount, assocFind]
  | cons hd tl ih =>
    obtain ⟨p, c⟩ := hd
    simp only [List.map_cons, List.nodup_cons] at hnd
    by_cases hp : p = peer
    · subst hp
      have htl : assocFind tl p = none := assocFind_eq_none_of_not_mem_keys tl p hnd.1
      by_cases hc : c - 1 = 0
      · simp [decrPeer, hc, peerCount, assocFind, htl]
      · simp [decrPeer, hc, peerCount, assocFind]
    · simp only [decrPeer, if_neg hp, peerCount, assocFind, hp, if_false] at ih ⊢
      exact ih hnd.2

theorem decrPeer_eq_self (rc : RefCounts) (peer : Nat)
    (h : assocFind rc peer = none) : decrPeer rc peer = rc := by
  induction rc with
  | nil => rfl
  | cons hd tl ih =>
    obtain ⟨p, c⟩ := hd
    by_cases hp : p = peer
    · simp [assocFind, if_pos hp] at h
    · simp only [assocFind, if_neg hp] at h
      simp only [decrPeer, if_neg hp]
      rw [ih h]

theorem getCount_decrFile (fs : SharedFiles) (fid peer : Nat)
    (hwf : ∀ fr ∈ fs, (fr.snd.map Prod.fst).Nodup) :
    getCount (decrFile fs fid peer) fid peer = getCount fs fid peer - 1 := by
  induction fs with
  | nil => simp [decrFile, getCount, assocFind]
  | cons hd tl ih =>
    obtain ⟨f, rc⟩ := hd
    by_cases hf : f = fid
    · subst hf
      simp only [decrFile, if_pos rfl, getCount, assocFind, if_pos rfl]
      exact peerCount_decrPeer rc peer (hwf (f, rc) (List.mem_cons_self _ _))
    · simp only [decrFile, if_neg hf, getCount, assocFind, hf, if_false] at ih ⊢
      exact ih (fun fr hfr => hwf fr (List.mem_cons_of_mem _ hfr))

theorem decrFile_eq_self (fs : SharedFiles) (fid peer : Nat)
    (h : hasPeerEntry fs fid peer = false) : decrFile fs fid peer = fs := by
  induction fs with
  | nil => rfl
  | cons hd tl ih =>
    obtain ⟨f, rc⟩ := hd
    by_cases hf : f = fid
    · have hh : hasPeerEntry ((f, rc) :: tl) fid peer = (assocFind rc peer).isSome := by
        simp [hasPeerEntry, assocFind, hf]
      rw [hh] at h
      have hnone : assocFind rc peer = none := by
        cases hx : assocFind rc peer with
        | none => rfl
        | some c => rw [hx] at h; simp at h
      simp [decrFile, hf, decrPeer_eq_self rc peer hnone]
    · simp only [hasPeerEntry, assocFind, hf, if_false] at h
      simp only [decrFile, if_neg hf]
      rw [ih h]

theorem pos_bumpPeer (rc : RefCounts) (peer : Nat)
    (h : ∀ pc ∈ rc, 0 < pc.snd) : ∀ pc ∈ bumpPeer rc peer, 0 < pc.snd := by
  induction rc with
  | nil => simp [bumpPeer]
  | cons hd tl ih =>
    obtain ⟨p, c⟩ := hd
    by_cases hp : p = peer
    · subst hp
      intro pc hpc
      simp [bumpPeer] at hpc
      rcases hpc with rfl | hpc
      · simp
      · exact h pc (List.mem_cons_of_mem _ hpc)
    · intro pc hpc
      simp only [bumpPeer, if_neg hp, List.mem_cons] at hpc
      rcases hpc with rfl | hpc
      · exact h (p, c) (List.mem_cons_self _ _)
      · exact ih (fun x hx => h x (List.mem_cons_of_mem _ hx)) pc hpc

theorem pos_decrPeer (rc : RefCounts) (peer : Nat)
    (h : ∀ pc ∈ rc, 0 < pc.snd) : ∀ pc ∈ decrPeer rc peer, 0 < pc.snd := by
  induction rc with
  | nil => simp [decrPeer]
  | cons hd tl ih =>
    obtain ⟨p, c⟩ := hd
    by_cases hp : p = peer
    · subst hp
      intro pc hpc
      by_cases hc : c - 1 = 0
      · simp [decrPeer, hc] at hpc
        exact h pc (List.mem_cons_of_mem _ hpc)
      · simp [decrPeer, hc] at hpc
        rcases hpc with rfl | hpc
        · exact Nat.pos_of_ne_zero hc
        · exact h pc (List.mem_cons_of_mem _ hpc)
    · intro pc hpc
      simp only [decrPeer, if_neg hp, List.mem_cons] at hpc
      rcases hpc with rfl | hpc
      · exact h (p, c) (List.mem_cons_self _ _)
      · exact ih (fun x hx => h x (List.mem_cons_of_mem _ hx)) pc hpc

theorem PositiveTable_incrRef (fs : SharedFiles) (fid peer : Nat)
    (h : PositiveTable fs) : PositiveTable (incrRef fs fid peer) := by
  induction fs with
  | nil =>
    intro fr hfr
    simp only [incrRef, List.mem_singleton] at hfr
    subst hfr
    simp
  | cons hd tl ih =>
    obtain ⟨f, rc⟩ := hd
    by_cases hf : f = fid
    · subst hf
      intro fr hfr
      simp [incrRef] at hfr
      rcases hfr with rfl | hfr
      · exact pos_bumpPeer rc peer (h (f, rc) (List.mem_cons_self _ _))
      · exact h fr (List.mem_cons_of_mem _ hfr)
    · intro fr hfr
      simp only [incrRef, if_neg hf, List.mem_cons] at hfr
      rcases hfr with rfl | hfr
      · exact h (f, rc) (List.mem_cons_self _ _)
      · exact ih (fun x hx => h x (List.mem_cons_of_mem _ hx)) fr hfr

theorem PositiveTable_decrFile (fs : SharedFiles) (fid peer : Nat)
    (h : PositiveTable fs) : PositiveTable (decrFile fs fid peer) := by
  induction fs with
  | nil => simpa [decrFile] using h
  | cons hd tl ih =>
    obtain ⟨f, rc⟩ := hd
    by_cases hf : f = fid
    · subst hf
      intro fr hfr
      simp [decrFile] at hfr
      rcases hfr with rfl | hfr
      · exact pos_decrPeer rc peer (h (f, rc) (List.mem_cons_self _ _))
      · exact h fr (List.mem_cons_of_mem _ hfr)
    · intro fr hfr
      simp only [decrFile, if_neg hf, List.mem_cons] at hfr
      rcases hfr with rfl | hfr
      · exact h (f, rc) (List.mem_cons_self _ _)
      · exact ih (fun x hx => h x (List.mem_cons_of_mem _ hx)) fr hfr

theorem keys_decrFile (fs : SharedFiles) (fid peer : Nat) :
    (decrFile fs fid peer).map Prod.fst = fs.map Prod.fst := by
  induction fs with
  | nil => rfl
  | cons hd tl ih =>
    obtain ⟨f, rc⟩ := hd
    by_cases hf : f = fid
    · simp [decrFile, if_pos hf]
    · simp only [decrFile, if_neg hf, List.map_cons]
      rw [ih]

theorem mem_keys_incrRef (fs : SharedFiles) (fid peer x : Nat)
    (h : x ∈ (incrRef fs fid peer).map Prod.fst) : x ∈ fs.map Prod.fst ∨ x = fid := by
  induction fs with
  | nil => simpa [incrRef] using h
  | cons hd tl ih =>
    obtain ⟨f, rc⟩ := hd
    by_cases hf : f = fid
    · subst hf
      simp [incrRef] at h
      rcases h with rfl | h
      · exact Or.inr rfl
      · exact Or.inl (by simpa using Or.inr h)
    · simp only [incrRef, if_neg hf, List.map_cons, List.mem_cons] at h ⊢
      rcases h with rfl | h
      · exact Or.inl (Or.inl rfl)
      · rcases ih h with h2 | h2
        · exact Or.inl (Or.inr h2)
        · exact Or.inr h2

theorem WfTable_incrRef (fs : SharedFiles) (fid peer : Nat)
    (h : WfTable fs) : WfTable (incrRef fs fid peer) := by
  obtain ⟨houter, hinner⟩ := h
  constructor
  · clear hinner
    induction fs with
    | nil => simp [incrRef]
    | cons hd tl ih =>
      obtain ⟨f, rc⟩ := hd
      simp only [List.map_cons, List.nodup_cons] at houter
      by_cases hf : f = fid
      · subst hf
        simpa [incrRef] using houter
      · simp only [incrRef, if_neg hf, List.map_cons, List.nodup_cons]
        refine ⟨fun hmem => ?_, ih houter.2⟩
        rcases mem_keys_incrRef tl fid peer f hmem with h2 | h2
        · exact houter.1 h2
        · exact hf h2
  · clear houter
    induction fs with
    | nil =>
      intro fr hfr
      simp only [incrRef, List.mem_singleton] at hfr
      subst hfr
      simp
    | cons hd tl ih =>
      obtain ⟨f, rc⟩ := hd
      by_cases hf : f = fid
      · subst hf
        intro fr hfr
        simp [incrRef] at hfr
        rcases hfr with rfl | hfr
        · exact nodup_keys_bumpPeer rc peer (hinner (f, rc) (List.mem_cons_self _ _))
        · exact hinner fr (List.mem_cons_of_mem _ hfr)
      · intro fr hfr
        simp only [incrRef, if_neg hf, List.mem_cons] at hfr
        rcases hfr with rfl | hfr
        · exact hinner (f, rc) (List.mem_cons_self _ _)
        · exact ih (fun x hx => hinner x (List.mem_cons_of_mem _ hx)) fr hfr

theorem WfTable_decrFile (fs : SharedFiles) (fid peer : Nat)
    (h : WfTable fs) : WfTable (decrFile fs fid peer) := by
  obtain ⟨houter, hinner⟩ := h
  refine ⟨by rw [keys_decrFile]; exact houter, ?_⟩
  clear houter
  induction fs with
  | nil => simp [decrFile]
  | cons hd tl ih =>
    obtain ⟨f, rc⟩ := hd
    by_cases hf : f = fid
    · subst hf
      intro fr hfr
      simp [decrFile] at hfr
      rcases hfr with rfl | hfr
      · exact nodup_keys_decrPeer rc peer (hinner (f, rc) (List.mem_cons_self _ _))
      · exact hinner fr (List.mem_cons_of_mem _ hfr)
    · intro fr hfr
      simp only [decrFile, if_neg hf, List.mem_cons] at hfr
      rcases hfr with rfl | hfr
      · exact hinner (f, rc) (List.mem_cons_self _ _)
      · exact ih (fun x hx => hinner x (List.mem_cons_of_mem _ hx)) fr hfr

theorem hasPeerEntry_iff_pos (fs : SharedFiles) (fid peer : Nat)
    (h : PositiveTable fs) :
    hasPeerEntry fs fid peer = true ↔ 0 < getCount fs fid peer := by
  unfold hasPeerEntry getCount
  cases hrc : assocFind fs fid with
  | none => simp
  | some rc =>
    cases hc : assocFind rc peer with
    | none => simp [peerCount, hc]
    | some c =>
      simp only [Option.isSome_some, peerCount, hc, true_iff]
      exact h (fid, rc) (assocFind_mem fs fid rc hrc) (peer, c)
        (assocFind_mem rc peer c hc)

theorem getCount_eq_zero_of_no_entry (fs : SharedFiles) (fid peer : Nat)
    (h : hasPeerEntry fs fid peer = false) : getCount fs fid peer = 0 := by
  unfold hasPeerEntry at h
  unfold getCount
  cases hrc : assocFind fs fid with
  | none => rfl
  | some rc =>
    rw [hrc] at h
    simp only at h
    have hnone : assocFind rc peer = none := by
      cases hx : assocFind rc peer with
      | none => rfl
      | some c => rw [hx] at h; simp at h
    simp [peerCount, hnone]

theorem hasPeerEntry_decrFile_iff (fs : SharedFiles) (fid peer : Nat)
    (hwf : WfTable fs) (hpos : PositiveTable fs) :
    hasPeerEntry (decrFile fs fid peer) fid peer = true ↔ 2 ≤ getCount fs fid peer := by
  rw [hasPeerEntry_iff_pos (decrFile fs fid peer) fid peer
      (PositiveTable_decrFile fs fid peer hpos),
    getCount_decrFile fs fid peer hwf.2]
  omega

theorem getCount_iter_incrRef (fs : SharedFiles) (fid peer n : Nat) :
    getCount ((fun s => incrRef s fid peer)^[n] fs) fid peer = getCount fs fid peer + n := by
  induction n with
  | zero => simp
  | succ m ih =>
    rw [Function.iterate_succ_apply', getCount_incrRef, ih]
    omega

theorem WfTable_iter_incrRef (fs : SharedFiles) (fid peer n : Nat)
    (h : WfTable fs) : WfTable ((fun s => incrRef s fid peer)^[n] fs) := by
  induction n with
  | zero => simpa
  | succ m ih =>
    rw [Function.iterate_succ_apply']
    exact WfTable_incrRef _ fid peer ih

theorem PositiveTable_iter_incrRef (fs : SharedFiles) (fid peer n : Nat)
    (h : PositiveTable fs) : PositiveTable ((fun s => incrRef s fid peer)^[n] fs) := by
  induction n with
  | zero => simpa
  | succ m ih =>
    rw [Function.iterate_succ_apply']
    exact PositiveTable_incrRef _ fid peer ih

theorem drain_decrFile (fid peer : Nat) :
    ∀ n (fs : SharedFiles), WfTable fs → PositiveTable fs → getCount fs fid peer = n →
      hasPeerEntry ((fun s => decrFile s fid peer)^[n] fs) fid peer = false := by
  intro n
  induction n with
  | zero =>
    intro fs hwf hpos hc
    simp only [Function.iterate_zero, id_eq]
    cases hb : hasPeerEntry fs fid peer
    · rfl
    · have := (hasPeerEntry_iff_pos fs fid peer hpos).mp hb
      omega
  | succ m ih =>
    intro fs hwf hpos hc
    rw [Function.iterate_succ_apply]
    refine ih (decrFile fs fid peer) (WfTable_decrFile fs fid peer hwf)
      (PositiveTable_decrFile fs fid peer hpos) ?_
    rw [getCount_decrFile fs fid peer hwf.2, hc]
    omega

/-- C3: in the Peer Ref Table maintained by `remote::open_file` and
`remote::close_file`, each OpenFile increments the (file, peer) count by
one and each CloseFile decrements it by one; the strict positivity of
stored counts is preserved by both operations; after a close, a peer entry
survives exactly when its previous count was at least two (so the entry is
removed exactly when the count reaches zero); a CloseFile naming an
unknown file id or a peer with no entry leaves the table unchanged; and N
OpenFile messages from one peer for one file followed by N CloseFile
messages leave no entry for that peer. -/
theorem C3_peer_ref_counts :
    (∀ fs fid peer, getCount (incrRef fs fid peer) fid peer = getCount fs fid peer + 1) ∧
    (∀ fs fid peer, (∀ fr ∈ fs, (fr.snd.map Prod.fst).Nodup) →
      getCount (decrFile fs fid peer) fid peer = getCount fs fid peer - 1) ∧
    (∀ fs fid peer, PositiveTable fs → PositiveTable (incrRef fs fid peer)) ∧
    (∀ fs fid peer, PositiveTable fs → PositiveTable (decrFile fs fid peer)) ∧
    (∀ fs fid peer, hasPeerEntry fs fid peer = false → decrFile fs fid peer = fs) ∧
    (∀ fs fid peer, WfTable fs → PositiveTable fs →
      (hasPeerEntry (decrFile fs fid peer) fid peer = true ↔ 2 ≤ getCount fs fid peer)) ∧
    (∀ fs fid peer n, WfTable fs → PositiveTable fs → hasPeerEntry fs fid peer = false →
      hasPeerEntry ((fun s => decrFile s fid peer)^[n]
        ((fun s => incrRef s fid peer)^[n] fs)) fid peer = false) := by
  refine ⟨getCount_incrRef, getCount_decrFile, PositiveTable_incrRef,
    PositiveTable_decrFile, decrFile_eq_self, hasPeerEntry_decrFile_iff, ?_⟩
  intro fs fid peer n hwf hpos hnone
  refine drain_decrFile fid peer n _ (WfTable_iter_incrRef fs fid peer n hwf)
    (PositiveTable_iter_incrRef fs fid peer n hpos) ?_
  rw [getCount_iter_incrRef, getCount_eq_zero_of_no_entry fs fid peer hnone]
  omega

/-- Concrete instantiation of C3: two OpenFile messages from peer 2 for
file 1 on an empty table followed by two CloseFile messages leave no entry
for that peer. -/
theorem C3_peer_ref_counts_witness :
    hasPeerEntry ((fun s => decrFile s 1 2)^[2] ((fun s => incrRef s 1 2)^[2] [])) 1 2
      = false :=
  C3_peer_ref_counts.2.2.2.2.2.2 [] 1 2 2 ⟨by simp, by simp⟩
    (fun fr hfr => absurd hfr (by simp)) rfl

/-! ## Workspace data model (struct Workspace in workspace.rs)

`Workspace::open_entry` and its companions operate on: the worktree set,
the Document Registry `items : Vec<Box<dyn WeakItemHandle>>` (weak item
handles, embedded as item ids whose liveness is a separate set), the
single-flight map `loading_items` (entry key mapped to the watch channel
of the pending load, embedded as a cell id), the pane, and the error log.
Background loads and the foreground continuations they wake are explicit
step functions (`bgResolve`, `consumerResume`) on this state, matching
the foreground-sequence scheduling of the source: every state mutation
happens in one of these atomic foreground steps. -/

deriving instance DecidableEq for Except

/-- Entry key `(worktree_id, relative_path)`, the `(usize, Arc<Path>)`
identity used throughout `workspace.rs`. -/
structure EntryKey where
  worktreeId : Nat
  path : String
deriving Repr, DecidableEq

/-- Entries written to the error log by `log::error!`. -/
inductive LogEntry where
  | worktreeNotFound (id : Nat)
  | openItemError (code : Nat)
  | saveItemError (code : Nat)
deriving Repr, DecidableEq

/-- An item view handle as the pane sees it: its own view id and the id of
the Document Item it presents. -/
structure ItemViewData where
  viewId : Nat
  itemId : Nat
deriving Repr, DecidableEq

/-- Modelled from the spec: `Pane` (pane.rs is declared by the source but
not part of this tree) is "an ordered list of item-view handles plus one
active index". -/
@[ext]
structure Pane where
  items : List ItemViewData
  activeIndex : Nat
deriving Repr, DecidableEq

/-- The file binding of an item: `item.file(cx)` returns the bound
`FileHandle` of a live item, if any; we read the binding through the item
heap. -/
def lookupFile (heap : List (Nat × Option EntryKey)) (i : Nat) : Option EntryKey :=
  match assocFind heap i with
  | some f => f
  | none => none

/-- Scan a list of item views for the first one whose item is bound to the
given entry key, returning its index. -/
def findEntryIdx (heap : List (Nat × Option EntryKey)) (key : EntryKey) :
    List ItemViewData → Option Nat
  | [] => none
  | v :: rest =>
    if lookupFile heap v.itemId = some key then some 0
    else (findEntryIdx heap key rest).map (fun ix => ix + 1)

/-- Modelled from the spec: `Pane::activate_entry` (pane.rs) "scans
current items for one bound to the key; if found, activates it and
returns true". -/
def Pane.activateEntry (p : Pane) (heap : List (Nat × Option EntryKey))
    (key : EntryKey) : Pane × Bool :=
  match findEntryIdx heap key p.items with
  | some ix => ({ p with activeIndex := ix }, true)
  | none => (p, false)

/-- Modelled from the spec: `Pane::add_item` (pane.rs) "appends, does not
change the active index" and returns the index of the appended view. -/
def Pane.addItem (p : Pane) (v : ItemViewData) : Pane × Nat :=
  ({ p with items := p.items ++ [v] }, p.items.length)

/-- Modelled from the spec: `Pane::activate_item(index)` (pane.rs) sets
the active index. -/
def Pane.activateItem (p : Pane) (ix : Nat) : Pane :=
  { p with activeIndex := ix }

/-- The currently active item of a pane, `pane.active_item()`. -/
def Pane.activeItem (p : Pane) : Option ItemViewData :=
  p.items[p.activeIndex]?

/-- A consumer task spawned by `open_entry`: the foreground continuation
holding a clone of the watch receiver for its cell and the captured entry
key. -/
structure ConsumerTask where
  cell : Nat
  key : EntryKey
deriving Repr, DecidableEq

/-- The workspace state touched by `open_entry` and friends.

  - `worktrees`: ids of the `worktrees` set.
  - `items`: the Document Registry, `Vec<Box<dyn WeakItemHandle>>`, as the
    ids of the referenced items in order.
  - `itemFiles`: the item heap: every allocated item id with its optional
    bound file entry key (the `file()` of the underlying model).
  - `aliveItems`: ids whose weak handles still upgrade.
  - `loadingItems`: the single-flight map, entry key to the id of the
    result cell of the pending load (the watch channel).
  - `cells`: result cells; `none` while the load is pending, then written
    once with the item id or an error code.
  - `bgLoads`: background load tasks spawned and not yet resolved.
  - `activePane`: the active pane.
  - `errorLog`: messages written by `log::error!`.
  - `nextId`: id supply for cells, items and views. -/
@[ext]
structure Workspace where
  worktrees : List Nat
  items : List Nat
  itemFiles : List (Nat × Option EntryKey)
  aliveItems : List Nat
  loadingItems : List (EntryKey × Nat)
  cells : List (Nat × Option (Except Nat Nat))
  bgLoads : List (Nat × EntryKey)
  activePane : Pane
  errorLog : List LogEntry
  nextId : Nat
deriving Repr, DecidableEq

/-- `Workspace::add_item_view`: wire the view to the active pane
(`set_parent_pane` is event-subscription bookkeeping with no further
state), append it (`pane.add_item`), then activate the returned index
(`pane.activate_item`). -/
def Workspace.addItemView (w : Workspace) (view : ItemViewData) : Workspace :=
  let r := Pane.addItem w.activePane view
  { w with activePane := Pane.activateItem r.fst r.snd }

/-- Scan the (already liveness-filtered) registry for the first item bound
to the key: the body of the `retain` loop that fills
`view_for_existing_item` in `open_entry`. -/
def findLiveMatch (heap : List (Nat × Option EntryKey)) (key : EntryKey) :
    List Nat → Option Nat
  | [] => none
  | i :: rest =>
    if lookupFile heap i = some key then some i
    else findLiveMatch heap key rest

/-- `Workspace::open_entry`.

  1. If the active pane already shows a view for this key
     (`pane.activate_entry`), activate it and return no task.
  2. Otherwise prune dead registry entries and look for a live item bound
     to the key (the `retain` loop); on a hit, attach a fresh view to it,
     add the view to the active pane, and return no task.
  3. Otherwise resolve the worktree; an unknown worktree id is logged and
     no task is returned.
  4. Otherwise consult `loading_items`: a vacant entry gets a fresh result
     cell and one background load (`Entry::Vacant`); an occupied entry is
     reused as is. Either way the returned task is the consumer waiting on
     the cell of that slot. (Each call also starts a `worktree.file`
     resolution task, but when the slot is occupied that task is dropped
     unused; the one load of record is the spawned history/buffer load.) -/
def Workspace.openEntry (w : Workspace) (key : EntryKey) :
    Workspace × Option ConsumerTask :=
  if (Pane.activateEntry w.activePane w.itemFiles key).snd then
    ({ w with activePane := (Pane.activateEntry w.activePane w.itemFiles key).fst }, none)
  else
    match findLiveMatch w.itemFiles key
        (w.items.filter (fun i => w.aliveItems.contains i)) with
    | some i =>
      (Workspace.addItemView
        { w with
            items := w.items.filter (fun i => w.aliveItems.contains i),
            nextId := w.nextId + 1 }
        { viewId := w.nextId, itemId := i }, none)
    | none =>
      if w.worktrees.contains key.worktreeId then
        match assocFind w.loadingItems key with
        | some cell =>
          ({ w with items := w.items.filter (fun i => w.aliveItems.contains i) },
           some { cell := cell, key := key })
        | none =>
          ({ w with
              items := w.items.filter (fun i => w.aliveItems.contains i),
              loadingItems := w.loadingItems ++ [(key, w.nextId)],
              cells := w.cells ++ [(w.nextId, none)],
              bgLoads := w.bgLoads ++ [(w.nextId, key)],
              nextId := w.nextId + 1 },
           some { cell := w.nextId, key := key })
      else
        ({ w with
            items := w.items.filter (fun i => w.aliveItems.contains i),
            errorLog := w.errorLog ++ [LogEntry.worktreeNotFound key.worktreeId] },
         none)

/-- Write a pending result cell; a cell is written at most once (the
spawned load task assigns its watch channel exactly once). -/
def Workspace.writeCell (w : Workspace) (cell : Nat) (v : Except Nat Nat) : Workspace :=
  { w with
      cells := w.cells.map (fun p =>
        if p.fst == cell && p.snd.isNone then (p.fst, some v) else p) }

/-- One background load completing: the detached task spawned in the
vacant branch of `open_entry` awaits the file handle, loads its history,
builds the buffer bound to that file (`Buffer::from_history` with
`Some(file)`), and writes the outcome into the watch channel. `outcome`
abstracts the fallible file-resolution/history-load: on success a fresh
live item bound to the key is allocated, on failure the error code is
recorded. Cells are written at most once because each spawned load runs
once; an unknown cell is a no-op. -/
def Workspace.bgResolve (w : Workspace) (cell : Nat) (outcome : Except Nat Unit) :
    Workspace :=
  match assocFind w.bgLoads cell with
  | none => w
  | some key =>
    let w1 := { w with bgLoads := assocRemove w.bgLoads cell }
    match outcome with
    | Except.ok _ =>
      let itemId := w1.nextId
      Workspace.writeCell
        { w1 with
            itemFiles := w1.itemFiles ++ [(itemId, some key)],
            aliveItems := w1.aliveItems ++ [itemId],
            nextId := w1.nextId + 1 }
        cell (Except.ok itemId)
    | Except.error e => Workspace.writeCell w1 cell (Except.error e)

/-- Read a result cell as the consumer loop does through its watch
receiver. -/
def Workspace.readCell (w : Workspace) (cell : Nat) : Option (Except Nat Nat) :=
  match assocFind w.cells cell with
  | some v => v
  | none => none

/-- The foreground continuation of one `open_entry` caller, runnable once
its cell holds a value: remove the `loading_items` slot, then on success
downgrade the item, attach a view, push the weak handle onto the registry
and add the view to the active pane; on failure log the error. A consumer
whose cell is still pending keeps waiting (no state change). -/
def Workspace.consumerResume (w : Workspace) (t : ConsumerTask) : Workspace :=
  match Workspace.readCell w t.cell with
  | none => w
  | some loadResult =>
    let w1 := { w with loadingItems := assocRemove w.loadingItems t.key }
    match loadResult with
    | Except.ok itemId =>
      let view : ItemViewData := { viewId := w1.nextId, itemId := itemId }
      let w2 := { w1 with items := w1.items ++ [itemId], nextId := w1.nextId + 1 }
      Workspace.addItemView w2 view
    | Except.error e =>
      { w1 with errorLog := w1.errorLog ++ [LogEntry.openItemError e] }

/-! ## Branch lemmas for open_entry -/

theorem findEntryIdx_eq_none (heap : List (Nat × Option EntryKey)) (key : EntryKey)
    (vs : List ItemViewData) (h : ∀ v ∈ vs, lookupFile heap v.itemId ≠ some key) :
    findEntryIdx heap key vs = none := by
  induction vs with
  | nil => rfl
  | cons v rest ih =>
    simp only [findEntryIdx, if_neg (h v (List.mem_cons_self _ _))]
    rw [ih (fun x hx => h x (List.mem_cons_of_mem _ hx))]
    rfl

theorem activateEntry_not_shown (p : Pane) (heap : List (Nat × Option EntryKey))
    (key : EntryKey) (h : ∀ v ∈ p.items, lookupFile heap v.itemId ≠ some key) :
    Pane.activateEntry p heap key = (p, false) := by
  unfold Pane.activateEntry
  rw [findEntryIdx_eq_none heap key p.items h]

theorem findEntryIdx_some (heap : List (Nat × Option EntryKey)) (key : EntryKey)
    (vs : List ItemViewData) (h : ∃ v ∈ vs, lookupFile heap v.itemId = some key) :
    ∃ ix v, findEntryIdx heap key vs = some ix ∧ vs[ix]? = some v ∧
      lookupFile heap v.itemId = some key := by
  induction vs with
  | nil => simp at h
  | cons v rest ih =>
    by_cases hv : lookupFile heap v.itemId = some key
    · exact ⟨0, v, by simp [findEntryIdx, if_pos hv], by simp, hv⟩
    · have hrest : ∃ x ∈ rest, lookupFile heap x.itemId = some key := by
        obtain ⟨x, hx, hbind⟩ := h
        rcases List.mem_cons.mp hx with rfl | hx
        · exact absurd hbind hv
        · exact ⟨x, hx, hbind⟩
      obtain ⟨ix, x, hfind, hget, hbind⟩ := ih hrest
      refine ⟨ix + 1, x, ?_, by simpa using hget, hbind⟩
      simp [findEntryIdx, if_neg hv, hfind]

theorem findLiveMatch_eq_none (heap : List (Nat × Option EntryKey)) (key : EntryKey)
    (xs : List Nat) (h : ∀ i ∈ xs, lookupFile heap i ≠ some key) :
    findLiveMatch heap key xs = none := by
  induction xs with
  | nil => rfl
  | cons i rest ih =>
    simp only [findLiveMatch, if_neg (h i (List.mem_cons_self _ _))]
    exact ih (fun x hx => h x (List.mem_cons_of_mem _ hx))

theorem findLiveMatch_some (heap : List (Nat × Option EntryKey)) (key : EntryKey)
    (xs : List Nat) (h : ∃ i ∈ xs, lookupFile heap i = some key) :
    ∃ i, findLiveMatch heap key xs = some i ∧ i ∈ xs ∧
      lookupFile heap i = some key := by
  induction xs with
  | nil => simp at h
  | cons i rest ih =>
    by_cases hi : lookupFile heap i = some key
    · exact ⟨i, by simp [findLiveMatch, if_pos hi], List.mem_cons_self _ _, hi⟩
    · have hrest : ∃ x ∈ rest, lookupFile heap x = some key := by
        obtain ⟨x, hx, hbind⟩ := h
        rcases List.mem_cons.mp hx with rfl | hx
        · exact absurd hbind hi
        · exact ⟨x, hx, hbind⟩
      obtain ⟨x, hfind, hmem, hbind⟩ := ih hrest
      exact ⟨x, by simp [findLiveMatch, if_neg hi, hfind], List.mem_cons_of_mem _ hmem, hbind⟩

theorem filter_contains_idem (xs ys : List Nat) :
    (xs.filter (fun i => ys.contains i)).filter (fun i => ys.contains i)
      = xs.filter (fun i => ys.contains i) := by
  apply List.filter_eq_self.mpr
  intro a ha
  exact (List.mem_filter.mp ha).2

theorem concat_getElem?_length {α : Type} (l : List α) (v : α) :
    (l ++ [v])[l.length]? = some v := by
  induction l with
  | nil => rfl
  | cons a rest ih => simp [ih]

/-- C5: if the active pane already shows a view bound to the requested
entry key, `open_entry` activates that existing view and returns no task:
the load map, background loads, registry, item heap, cells, id supply and
the pane item list are all unchanged, and the active item afterwards is a
view bound to the key. -/
theorem C5_active_pane_hit (w : Workspace) (key : EntryKey)
    (h : ∃ v ∈ w.activePane.items, lookupFile w.itemFiles v.itemId = some key) :
    (w.openEntry key).snd = none ∧
    (w.openEntry key).fst.loadingItems = w.loadingItems ∧
    (w.openEntry key).fst.bgLoads = w.bgLoads ∧
    (w.openEntry key).fst.items = w.items ∧
    (w.openEntry key).fst.itemFiles = w.itemFiles ∧
    (w.openEntry key).fst.cells = w.cells ∧
    (w.openEntry key).fst.nextId = w.nextId ∧
    (w.openEntry key).fst.activePane.items = w.activePane.items ∧
    (∃ v, Pane.activeItem (w.openEntry key).fst.activePane = some v ∧
      lookupFile w.itemFiles v.itemId = some key) := by
  obtain ⟨ix, v, hfind, hget, hbind⟩ := findEntryIdx_some w.itemFiles key w.activePane.items h
  have hae : Pane.activateEntry w.activePane w.itemFiles key
      = ({ w.activePane with activeIndex := ix }, true) := by
    unfold Pane.activateEntry
    rw [hfind]
  have hsnd : (Pane.activateEntry w.activePane w.itemFiles key).snd = true := by
    rw [hae]
  have hfst : (Pane.activateEntry w.activePane w.itemFiles key).fst
      = { w.activePane with activeIndex := ix } := by
    rw [hae]
  have hopen : w.openEntry key
      = ({ w with activePane := { items := w.activePane.items, activeIndex := ix } }, none) := by
    unfold Workspace.openEntry
    rw [hsnd, hfst]
    rfl
  rw [hopen]
  refine ⟨rfl, rfl, rfl, rfl, rfl, rfl, rfl, rfl, v, ?_, hbind⟩
  simpa [Pane.activeItem] using hget

/-- C6: if the key is not visible in the active pane but some live
registry item is bound to it, `open_entry` synchronously attaches a new
view to that item, appends it to the active pane and activates it,
returns no task, creates no load slot and no background load, and prunes
every dead registry entry during the lookup. -/
theorem C6_registry_hit (w : Workspace) (key : EntryKey)
    (h1 : ∀ v ∈ w.activePane.items, lookupFile w.itemFiles v.itemId ≠ some key)
    (h2 : ∃ i ∈ w.items.filter (fun i => w.aliveItems.contains i),
      lookupFile w.itemFiles i = some key) :
    (w.openEntry key).snd = none ∧
    (w.openEntry key).fst.loadingItems = w.loadingItems ∧
    (w.openEntry key).fst.bgLoads = w.bgLoads ∧
    (w.openEntry key).fst.cells = w.cells ∧
    (w.openEntry key).fst.items = w.items.filter (fun i => w.aliveItems.contains i) ∧
    (w.openEntry key).fst.itemFiles = w.itemFiles ∧
    (w.openEntry key).fst.nextId = w.nextId + 1 ∧
    (∃ i, i ∈ w.items ∧ w.aliveItems.contains i = true ∧
      lookupFile w.itemFiles i = some key ∧
      (w.openEntry key).fst.activePane.items
        = w.activePane.items ++ [{ viewId := w.nextId, itemId := i }] ∧
      Pane.activeItem (w.openEntry key).fst.activePane
        = some { viewId := w.nextId, itemId := i }) := by
  obtain ⟨i, hfind, hmem, hbind⟩ :=
    findLiveMatch_some w.itemFiles key (w.items.filter (fun i => w.aliveItems.contains i)) h2
  have hae : Pane.activateEntry w.activePane w.itemFiles key = (w.activePane, false) :=
    activateEntry_not_shown w.activePane w.itemFiles key h1
  have hsnd : (Pane.activateEntry w.activePane w.itemFiles key).snd = false := by
    rw [hae]
  have hopen : w.openEntry key
      = ({ w with
            items := w.items.filter (fun i => w.aliveItems.contains i),
            nextId := w.nextId + 1,
            activePane :=
              { items := w.activePane.items ++ [{ viewId := w.nextId, itemId := i }],
                activeIndex := w.activePane.items.length } }, none) := by
    unfold Workspace.openEntry
    rw [hsnd, hfind]
    rfl
  rw [hopen]
  refine ⟨rfl, rfl, rfl, rfl, rfl, rfl, rfl, i,
    (List.mem_filter.mp hmem).1, (List.mem_filter.mp hmem).2, hbind, rfl, ?_⟩
  simp only [Pane.activeItem]
  exact concat_getElem?_length w.activePane.items { viewId := w.nextId, itemId := i }

/-- C4 (amended): the OpenFile handler fails with an error when the
request lacks an original sender id or names an unknown worktree, in both
cases before any table mutation or reply; the CloseFile handler fails with
an error when the request lacks an original sender id; and `open_entry`
with an unknown worktree id logs the resolution error and returns `none`
to its caller (the `Option<Task>` return type carries no error value),
leaving the load map and background loads unchanged. -/
theorem C4_amended_error_surfacing :
    (∀ resolve st (req : OpenFileRequest), req.originalSenderId = none →
      openFile resolve st req = Except.error "missing original sender id") ∧
    (∀ resolve st (req : OpenFileRequest) peer, req.originalSenderId = some peer →
      st.sharedWorktrees.contains req.worktreeId = false →
      openFile resolve st req
        = Except.error ("worktree " ++ toString req.worktreeId ++ " not found")) ∧
    (∀ st (req : CloseFileRequest), req.originalSenderId = none →
      closeFile st req = Except.error "missing original sender id") ∧
    (∀ (w : Workspace) (key : EntryKey),
      (∀ v ∈ w.activePane.items, lookupFile w.itemFiles v.itemId ≠ some key) →
      (∀ i ∈ w.items.filter (fun i => w.aliveItems.contains i),
        lookupFile w.itemFiles i ≠ some key) →
      w.worktrees.contains key.worktreeId = false →
      (w.openEntry key).snd = none ∧
      (w.openEntry key).fst.errorLog
        = w.errorLog ++ [LogEntry.worktreeNotFound key.worktreeId] ∧
      (w.openEntry key).fst.loadingItems = w.loadingItems ∧
      (w.openEntry key).fst.bgLoads = w.bgLoads) := by
  refine ⟨?_, ?_, ?_, ?_⟩
  · intro resolve st req h
    simp [openFile, h]
  · intro resolve st req peer hs hw
    simp only [openFile, hs]
    rw [hw]
    rfl
  · intro st req h
    simp [closeFile, h]
  · intro w key h1 h2 h3
    have hae : Pane.activateEntry w.activePane w.itemFiles key = (w.activePane, false) :=
      activateEntry_not_shown w.activePane w.itemFiles key h1
    have hsnd : (Pane.activateEntry w.activePane w.itemFiles key).snd = false := by
      rw [hae]
    have hlive : findLiveMatch w.itemFiles key
        (w.items.filter (fun i => w.aliveItems.contains i)) = none :=
      findLiveMatch_eq_none w.itemFiles key _ h2
    have hopen : w.openEntry key
        = ({ w with items := w.items.filter (fun i => w.aliveItems.contains i),
                    errorLog := w.errorLog
                      ++ [LogEntry.worktreeNotFound key.worktreeId] }, none) := by
      unfold Workspace.openEntry
      rw [hsnd, hlive, h3]
      rfl
    rw [hopen]
    exact ⟨rfl, rfl, rfl, rfl⟩

/-- Counterexample for C4 as stated: on a workspace with no worktrees,
`open_entry` for worktree 7 returns `none` — the same caller-visible value
as the silent synchronous-success paths — while the resolution error only
lands in the log, so the error is not surfaced to the caller as an error
value. -/
theorem C4_counterexample :
    ((({ worktrees := [], items := [], itemFiles := [], aliveItems := [],
         loadingItems := [], cells := [], bgLoads := [],
         activePane := { items := [], activeIndex := 0 }, errorLog := [],
         nextId := 0 } : Workspace).openEntry
        { worktreeId := 7, path := "a" }).snd = none) ∧
    ((({ worktrees := [], items := [], itemFiles := [], aliveItems := [],
         loadingItems := [], cells := [], bgLoads := [],
         activePane := { items := [], activeIndex := 0 }, errorLog := [],
         nextId := 0 } : Workspace).openEntry
        { worktreeId := 7, path := "a" }).fst.errorLog
      = [LogEntry.worktreeNotFound 7]) := by
  exact ⟨rfl, rfl⟩

/-! ## Step lemmas for the load scenario -/

theorem openEntry_occupied (w : Workspace) (key : EntryKey) (cell : Nat)
    (h1 : ∀ v ∈ w.activePane.items, lookupFile w.itemFiles v.itemId ≠ some key)
    (h2 : ∀ i ∈ w.items.filter (fun i => w.aliveItems.contains i),
      lookupFile w.itemFiles i ≠ some key)
    (h3 : w.worktrees.contains key.worktreeId = true)
    (hslot : assocFind w.loadingItems key = some cell) :
    w.openEntry key
      = ({ w with items := w.items.filter (fun i => w.aliveItems.contains i) },
         some { cell := cell, key := key }) := by
  have hsnd : (Pane.activateEntry w.activePane w.itemFiles key).snd = false := by
    rw [activateEntry_not_shown w.activePane w.itemFiles key h1]
  have hlive := findLiveMatch_eq_none w.itemFiles key _ h2
  unfold Workspace.openEntry
  rw [hsnd, hlive, h3, hslot]
  rfl

theorem openEntry_vacant (w : Workspace) (key : EntryKey)
    (h1 : ∀ v ∈ w.activePane.items, lookupFile w.itemFiles v.itemId ≠ some key)
    (h2 : ∀ i ∈ w.items.filter (fun i => w.aliveItems.contains i),
      lookupFile w.itemFiles i ≠ some key)
    (h3 : w.worktrees.contains key.worktreeId = true)
    (hslot : assocFind w.loadingItems key = none) :
    w.openEntry key
      = ({ w with
            items := w.items.filter (fun i => w.aliveItems.contains i),
            loadingItems := w.loadingItems ++ [(key, w.nextId)],
            cells := w.cells ++ [(w.nextId, none)],
            bgLoads := w.bgLoads ++ [(w.nextId, key)],
            nextId := w.nextId + 1 },
         some { cell := w.nextId, key := key }) := by
  have hsnd : (Pane.activateEntry w.activePane w.itemFiles key).snd = false := by
    rw [activateEntry_not_shown w.activePane w.itemFiles key h1]
  have hlive := findLiveMatch_eq_none w.itemFiles key _ h2
  unfold Workspace.openEntry
  rw [hsnd, hlive, h3, hslot]
  rfl

theorem bgResolve_ok (w : Workspace) (cell : Nat) (key : EntryKey)
    (hfind : assocFind w.bgLoads cell = some key) :
    w.bgResolve cell (Except.ok ())
      = Workspace.writeCell
          { w with
              bgLoads := assocRemove w.bgLoads cell,
              itemFiles := w.itemFiles ++ [(w.nextId, some key)],
              aliveItems := w.aliveItems ++ [w.nextId],
              nextId := w.nextId + 1 }
          cell (Except.ok w.nextId) := by
  unfold Workspace.bgResolve
  rw [hfind]

theorem bgResolve_err (w : Workspace) (cell : Nat) (key : EntryKey) (e : Nat)
    (hfind : assocFind w.bgLoads cell = some key) :
    w.bgResolve cell (Except.error e)
      = Workspace.writeCell { w with bgLoads := assocRemove w.bgLoads cell }
          cell (Except.error e) := by
  unfold Workspace.bgResolve
  rw [hfind]

theorem consumerResume_ok (w : Workspace) (t : ConsumerTask) (itemId : Nat)
    (hread : Workspace.readCell w t.cell = some (Except.ok itemId)) :
    w.consumerResume t
      = Workspace.addItemView
          { w with
              loadingItems := assocRemove w.loadingItems t.key,
              items := w.items ++ [itemId],
              nextId := w.nextId + 1 }
          { viewId := w.nextId, itemId := itemId } := by
  unfold Workspace.consumerResume
  rw [hread]

theorem consumerResume_err (w : Workspace) (t : ConsumerTask) (e : Nat)
    (hread : Workspace.readCell w t.cell = some (Except.error e)) :
    w.consumerResume t
      = { w with
            loadingItems := assocRemove w.loadingItems t.key,
            errorLog := w.errorLog ++ [LogEntry.openItemError e] } := by
  unfold Workspace.consumerResume
  rw [hread]

theorem cellsMap_id (cs : List (Nat × Option (Except Nat Nat))) (n : Nat)
    (v : Except Nat Nat) (h : ∀ p ∈ cs, p.fst < n) :
    cs.map (fun p => if p.fst == n && p.snd.isNone then (p.fst, some v) else p) = cs := by
  induction cs with
  | nil => rfl
  | cons hd tl ih =>
    have hne : (hd.fst == n) = false := by
      have hlt := h hd (List.mem_cons_self _ _)
      simp [Nat.ne_of_lt hlt]
    have ih2 := ih (fun p hp => h p (List.mem_cons_of_mem _ hp))
    simp only [List.map_cons, ih2]
    rw [hne]
    simp

theorem cellsMap_fresh (cs : List (Nat × Option (Except Nat Nat))) (n : Nat)
    (v : Except Nat Nat) (h : ∀ p ∈ cs, p.fst < n) :
    (cs ++ [(n, none)]).map
        (fun (p : Nat × Option (Except Nat Nat)) =>
          if p.fst == n && p.snd.isNone then (p.fst, some v) else p)
      = cs ++ [(n, some v)] := by
  rw [List.map_append, cellsMap_id cs n v h]
  simp

theorem assocFind_lt_none {α : Type} (l : List (Nat × α)) (n : Nat)
    (h : ∀ p ∈ l, p.fst < n) : assocFind l n = none :=
  assocFind_eq_none l n (fun p hp => Nat.ne_of_lt (h p hp))

theorem assocRemove_singleton_self {κ α : Type} [DecidableEq κ] (key : κ) (v : α) :
    assocRemove [(key, v)] key = [] := by
  simp [assocRemove]

theorem bgResolve_missing (w : Workspace) (cell : Nat) (outcome : Except Nat Unit)
    (hfind : assocFind w.bgLoads cell = none) : w.bgResolve cell outcome = w := by
  unfold Workspace.bgResolve
  rw [hfind]

theorem readCell_of_cells (u : Workspace) (cs : List (Nat × Option (Except Nat Nat)))
    (n : Nat) (v : Except Nat Nat) (hcells : u.cells = cs ++ [(n, some v)])
    (hfresh : ∀ p ∈ cs, p.fst < n) : Workspace.readCell u n = some v := by
  unfold Workspace.readCell
  rw [hcells, assocFind_append _ _ _ (assocFind_lt_none cs n hfresh),
    assocFind_singleton_self]

/-- The workspace state right after one `open_entry` call takes the vacant
load path: registry pruned, one new Load Slot, one pending result cell,
one spawned background load. -/
def loadS1 (w : Workspace) (key : EntryKey) : Workspace :=
  { w with
      items := w.items.filter (fun i => w.aliveItems.contains i),
      loadingItems := w.loadingItems ++ [(key, w.nextId)],
      cells := w.cells ++ [(w.nextId, none)],
      bgLoads := w.bgLoads ++ [(w.nextId, key)],
      nextId := w.nextId + 1 }

/-- The state after a second `open_entry` call for the same key finds the
slot occupied: only the (idempotent) registry pruning ran again. -/
def loadS2 (w : Workspace) (key : EntryKey) : Workspace :=
  { w with
      items := (w.items.filter (fun i => w.aliveItems.contains i)).filter
        (fun i => w.aliveItems.contains i),
      loadingItems := w.loadingItems ++ [(key, w.nextId)],
      cells := w.cells ++ [(w.nextId, none)],
      bgLoads := w.bgLoads ++ [(w.nextId, key)],
      nextId := w.nextId + 1 }

/-- The state after the single background load succeeds: one fresh live
item bound to the key, the cell written once with it, the load retired;
the Load Slot is still in place until a consumer runs. -/
def loadS3 (w : Workspace) (key : EntryKey) : Workspace :=
  { w with
      items := (w.items.filter (fun i => w.aliveItems.contains i)).filter
        (fun i => w.aliveItems.contains i),
      itemFiles := w.itemFiles ++ [(w.nextId + 1, some key)],
      aliveItems := w.aliveItems ++ [w.nextId + 1],
      loadingItems := w.loadingItems ++ [(key, w.nextId)],
      cells := w.cells ++ [(w.nextId, some (Except.ok (w.nextId + 1)))],
      bgLoads := w.bgLoads,
      nextId := w.nextId + 2 }

/-- The state after the first waiting caller consumes the result: the slot
is removed, the item is pushed onto the registry, and a first view of it
is appended to the active pane and activated. -/
def loadS4 (w : Workspace) (key : EntryKey) : Workspace :=
  { w with
      items := (w.items.filter (fun i => w.aliveItems.contains i)).filter
        (fun i => w.aliveItems.contains i) ++ [w.nextId + 1],
      itemFiles := w.itemFiles ++ [(w.nextId + 1, some key)],
      aliveItems := w.aliveItems ++ [w.nextId + 1],
      loadingItems := w.loadingItems,
      cells := w.cells ++ [(w.nextId, some (Except.ok (w.nextId + 1)))],
      bgLoads := w.bgLoads,
      activePane :=
        { items := w.activePane.items
            ++ [{ viewId := w.nextId + 2, itemId := w.nextId + 1 }],
          activeIndex := w.activePane.items.length },
      nextId := w.nextId + 3 }

/-- The state after the second waiting caller consumes the same result: a
second view of the same single item is appended and activated, and the
registry receives a second handle to it. -/
def loadS5 (w : Workspace) (key : EntryKey) : Workspace :=
  { w with
      items := (w.items.filter (fun i => w.aliveItems.contains i)).filter
        (fun i => w.aliveItems.contains i) ++ [w.nextId + 1, w.nextId + 1],
      itemFiles := w.itemFiles ++ [(w.nextId + 1, some key)],
      aliveItems := w.aliveItems ++ [w.nextId + 1],
      loadingItems := w.loadingItems,
      cells := w.cells ++ [(w.nextId, some (Except.ok (w.nextId + 1)))],
      bgLoads := w.bgLoads,
      activePane :=
        { items := w.activePane.items
            ++ [{ viewId := w.nextId + 2, itemId := w.nextId + 1 },
                { viewId := w.nextId + 3, itemId := w.nextId + 1 }],
          activeIndex := w.activePane.items.length + 1 },
      nextId := w.nextId + 4 }

/-- C1: two `open_entry` calls for the same never-seen key, issued before
the load resolves, share one Load Slot and one background load: both calls
return a task watching the same cell (the second call finds the slot
occupied and spawns nothing), the load map holds exactly the one new slot
while the load is pending, and once the single load resolves each caller
attaches its own view to the one freshly created Document Item, so the
active pane ends with two view entries bound to the same single item. -/
theorem C1_single_flight (w : Workspace) (key : EntryKey)
    (h1 : ∀ v ∈ w.activePane.items, lookupFile w.itemFiles v.itemId ≠ some key)
    (h2 : ∀ i ∈ w.items.filter (fun i => w.aliveItems.contains i),
      lookupFile w.itemFiles i ≠ some key)
    (h3 : w.worktrees.contains key.worktreeId = true)
    (h4 : ∀ p ∈ w.loadingItems, p.fst ≠ key)
    (h5 : ∀ p ∈ w.bgLoads, p.fst < w.nextId)
    (h6 : ∀ p ∈ w.cells, p.fst < w.nextId) :
    w.openEntry key = (loadS1 w key, some { cell := w.nextId, key := key }) ∧
    (loadS1 w key).openEntry key
      = (loadS2 w key, some { cell := w.nextId, key := key }) ∧
    (loadS1 w key).loadingItems = w.loadingItems ++ [(key, w.nextId)] ∧
    (loadS2 w key).loadingItems = w.loadingItems ++ [(key, w.nextId)] ∧
    (loadS1 w key).bgLoads = w.bgLoads ++ [(w.nextId, key)] ∧
    (loadS2 w key).bgLoads = w.bgLoads ++ [(w.nextId, key)] ∧
    (loadS2 w key).bgResolve w.nextId (Except.ok ()) = loadS3 w key ∧
    (loadS3 w key).loadingItems = w.loadingItems ++ [(key, w.nextId)] ∧
    (loadS3 w key).consumerResume { cell := w.nextId, key := key } = loadS4 w key ∧
    (loadS4 w key).consumerResume { cell := w.nextId, key := key } = loadS5 w key ∧
    (loadS4 w key).activePane.items = w.activePane.items
      ++ [{ viewId := w.nextId + 2, itemId := w.nextId + 1 }] ∧
    (loadS5 w key).activePane.items = w.activePane.items
      ++ [{ viewId := w.nextId + 2, itemId := w.nextId + 1 },
          { viewId := w.nextId + 3, itemId := w.nextId + 1 }] ∧
    (loadS4 w key).loadingItems = w.loadingItems ∧
    (loadS5 w key).loadingItems = w.loadingItems ∧
    (loadS5 w key).bgLoads = w.bgLoads := by
  have hslot0 : assocFind w.loadingItems key = none := assocFind_eq_none _ _ h4
  have e1 : w.openEntry key = (loadS1 w key, some { cell := w.nextId, key := key }) :=
    openEntry_vacant w key h1 h2 h3 hslot0
  have hslot2 : assocFind (w.loadingItems ++ [(key, w.nextId)]) key = some w.nextId := by
    rw [assocFind_append _ _ _ hslot0]
    exact assocFind_singleton_self key w.nextId
  have hbg : assocFind (w.bgLoads ++ [(w.nextId, key)]) w.nextId = some key := by
    rw [assocFind_append _ _ _ (assocFind_lt_none w.bgLoads w.nextId h5)]
    exact assocFind_singleton_self w.nextId key
  have hrem1 : assocRemove (w.loadingItems ++ [(key, w.nextId)]) key = w.loadingItems := by
    rw [assocRemove_append, assocRemove_eq_self _ _ h4, assocRemove_singleton_self]
    simp
  have hremb : assocRemove (w.bgLoads ++ [(w.nextId, key)]) w.nextId = w.bgLoads := by
    rw [assocRemove_append,
      assocRemove_eq_self _ _ (fun p hp => Nat.ne_of_lt (h5 p hp)),
      assocRemove_singleton_self]
    simp
  have e2 : (loadS1 w key).openEntry key
      = (loadS2 w key, some { cell := w.nextId, key := key }) :=
    openEntry_occupied (loadS1 w key) key w.nextId h1
      (fun i hi => h2 i (List.mem_filter.mp hi).1) h3 hslot2
  have e3 : (loadS2 w key).bgResolve w.nextId (Except.ok ()) = loadS3 w key := by
    rw [bgResolve_ok (loadS2 w key) w.nextId key hbg]
    apply Workspace.ext
    · rfl
    · rfl
    · rfl
    · rfl
    · rfl
    · exact cellsMap_fresh w.cells w.nextId (Except.ok (w.nextId + 1)) h6
    · exact hremb
    · rfl
    · rfl
    · rfl
  have hread3 : Workspace.readCell (loadS3 w key) w.nextId
      = some (Except.ok (w.nextId + 1)) :=
    readCell_of_cells (loadS3 w key) w.cells w.nextId (Except.ok (w.nextId + 1)) rfl h6
  have e4 : (loadS3 w key).consumerResume { cell := w.nextId, key := key }
      = loadS4 w key := by
    rw [consumerResume_ok (loadS3 w key) { cell := w.nextId, key := key }
      (w.nextId + 1) hread3]
    apply Workspace.ext
    · rfl
    · rfl
    · rfl
    · rfl
    · exact hrem1
    · rfl
    · rfl
    · rfl
    · rfl
    · rfl
  have hread4 : Workspace.readCell (loadS4 w key) w.nextId
      = some (Except.ok (w.nextId + 1)) :=
    readCell_of_cells (loadS4 w key) w.cells w.nextId (Except.ok (w.nextId + 1)) rfl h6
  have e5 : (loadS4 w key).consumerResume { cell := w.nextId, key := key }
      = loadS5 w key := by
    rw [consumerResume_ok (loadS4 w key) { cell := w.nextId, key := key }
      (w.nextId + 1) hread4]
    apply Workspace.ext
    · rfl
    · exact List.append_assoc _ _ _
    · rfl
    · rfl
    · exact assocRemove_eq_self _ _ h4
    · rfl
    · rfl
    · apply Pane.ext
      · exact List.append_assoc _ _ _
      · simp [Workspace.addItemView, Pane.addItem, Pane.activateItem, loadS4, loadS5]
    · rfl
    · rfl
  exact ⟨e1, e2, rfl, rfl, rfl, rfl, e3, rfl, e4, e5, rfl, rfl, rfl, rfl, rfl⟩

theorem consumerResume_ok_items (u : Workspace) (t : ConsumerTask) (itemId : Nat)
    (hread : Workspace.readCell u t.cell = some (Except.ok itemId)) :
    (u.consumerResume t).items = u.items ++ [itemId] := by
  rw [consumerResume_ok u t itemId hread]
  rfl

theorem consumerResume_ok_pane (u : Workspace) (t : ConsumerTask) (itemId : Nat)
    (hread : Workspace.readCell u t.cell = some (Except.ok itemId)) :
    (u.consumerResume t).activePane.items
      = u.activePane.items ++ [{ viewId := u.nextId, itemId := itemId }] := by
  rw [consumerResume_ok u t itemId hread]
  rfl

theorem consumerResume_ok_nextId (u : Workspace) (t : ConsumerTask) (itemId : Nat)
    (hread : Workspace.readCell u t.cell = some (Except.ok itemId)) :
    (u.consumerResume t).nextId = u.nextId + 1 := by
  rw [consumerResume_ok u t itemId hread]
  rfl

theorem consumerResume_cells (u : Workspace) (t : ConsumerTask) :
    (u.consumerResume t).cells = u.cells := by
  unfold Workspace.consumerResume
  cases h : Workspace.readCell u t.cell with
  | none => rfl
  | some loadResult =>
    cases loadResult with
    | ok itemId => rfl
    | error e => rfl

theorem readCell_congr (u u2 : Workspace) (h : u2.cells = u.cells) (c : Nat) :
    Workspace.readCell u2 c = Workspace.readCell u c := by
  unfold Workspace.readCell
  rw [h]

/-- C2 (amended): when a pending load has resolved successfully, EVERY
consumer of the result — not only the first — pushes a weak handle to the
one shared item onto the Document Registry and attaches its own view to
that same item; there is no registry re-check before the push. Two
consumers of the same cell therefore leave two registry entries for the
identical item and two pane views of it. -/
theorem C2_amended_every_consumer_inserts (u : Workspace) (c : Nat) (key : EntryKey)
    (itemId : Nat) (hread : Workspace.readCell u c = some (Except.ok itemId)) :
    (u.consumerResume { cell := c, key := key }).items = u.items ++ [itemId] ∧
    ((u.consumerResume { cell := c, key := key }).consumerResume
        { cell := c, key := key }).items = u.items ++ [itemId] ++ [itemId] ∧
    ((u.consumerResume { cell := c, key := key }).consumerResume
        { cell := c, key := key }).activePane.items
      = u.activePane.items
        ++ [{ viewId := u.nextId, itemId := itemId },
            { viewId := u.nextId + 1, itemId := itemId }] := by
  have hread2 : Workspace.readCell
      (u.consumerResume { cell := c, key := key }) c = some (Except.ok itemId) :=
    (readCell_congr u (u.consumerResume { cell := c, key := key })
      (consumerResume_cells u { cell := c, key := key }) c).trans hread
  refine ⟨consumerResume_ok_items u { cell := c, key := key } itemId hread, ?_, ?_⟩
  · rw [consumerResume_ok_items (u.consumerResume { cell := c, key := key })
      { cell := c, key := key } itemId hread2,
      consumerResume_ok_items u { cell := c, key := key } itemId hread]
  · rw [consumerResume_ok_pane (u.consumerResume { cell := c, key := key })
      { cell := c, key := key } itemId hread2,
      consumerResume_ok_pane u { cell := c, key := key } itemId hread,
      consumerResume_ok_nextId u { cell := c, key := key } itemId hread,
      List.append_assoc]
    rfl

/-- A concrete empty workspace with one worktree, used to instantiate the
load scenarios. -/
def loadScenarioBase : Workspace :=
  { worktrees := [1], items := [], itemFiles := [], aliveItems := [],
    loadingItems := [], cells := [], bgLoads := [],
    activePane := { items := [], activeIndex := 0 }, errorLog := [], nextId := 10 }

/-- The entry key used by the concrete load scenarios. -/
def keyF : EntryKey := { worktreeId := 1, path := "f" }

/-- Counterexample for C2 as stated: running the two-caller scenario on a
concrete workspace, the second consumer does not re-check the registry —
after both consumers run, the Document Registry holds TWO entries (both
for item 11), where the claim predicts a single insertion by the first
consumer only. -/
theorem C2_counterexample :
    (((((loadScenarioBase.openEntry keyF).fst.openEntry keyF).fst.bgResolve 10
        (Except.ok ())).consumerResume { cell := 10, key := keyF }).consumerResume
        { cell := 10, key := keyF }).items = [11, 11] ∧
    ¬ (((((loadScenarioBase.openEntry keyF).fst.openEntry keyF).fst.bgResolve 10
        (Except.ok ())).consumerResume { cell := 10, key := keyF }).consumerResume
        { cell := 10, key := keyF }).items.count 11 ≤ 1 := by
  constructor
  · rfl
  · decide

/-- The state after the single background load fails with error `e`: no
item is created, the error is written once into the cell, the load is
retired; the slot is still in place until a consumer runs. -/
def failS3 (w : Workspace) (key : EntryKey) (e : Nat) : Workspace :=
  { w with
      items := (w.items.filter (fun i => w.aliveItems.contains i)).filter
        (fun i => w.aliveItems.contains i),
      loadingItems := w.loadingItems ++ [(key, w.nextId)],
      cells := w.cells ++ [(w.nextId, some (Except.error e))],
      bgLoads := w.bgLoads,
      nextId := w.nextId + 1 }

/-- The state after the first waiting caller observes the failure: the
slot is discarded and the error is logged; nothing reaches the registry
or the pane. -/
def failS4 (w : Workspace) (_key : EntryKey) (e : Nat) : Workspace :=
  { w with
      items := (w.items.filter (fun i => w.aliveItems.contains i)).filter
        (fun i => w.aliveItems.contains i),
      loadingItems := w.loadingItems,
      cells := w.cells ++ [(w.nextId, some (Except.error e))],
      bgLoads := w.bgLoads,
      errorLog := w.errorLog ++ [LogEntry.openItemError e],
      nextId := w.nextId + 1 }

/-- The state after the second waiting caller observes the identical
failure: the same error is logged a second time and nothing else
changes. -/
def failS5 (w : Workspace) (_key : EntryKey) (e : Nat) : Workspace :=
  { w with
      items := (w.items.filter (fun i => w.aliveItems.contains i)).filter
        (fun i => w.aliveItems.contains i),
      loadingItems := w.loadingItems,
      cells := w.cells ++ [(w.nextId, some (Except.error e))],
      bgLoads := w.bgLoads,
      errorLog := w.errorLog ++ [LogEntry.openItemError e, LogEntry.openItemError e],
      nextId := w.nextId + 1 }

/-- C7: when the load for an entry key fails, the error is written once
into the slot's cell and every waiter reads that identical value; each
waiter only logs it (no retry is issued, no item is created, no registry
entry is pushed, no view reaches any pane); the first consumer discards
the Load Slot; and a later `open_entry` for the same key finds the map
vacant and starts a fresh load. -/
theorem C7_load_failure (w : Workspace) (key : EntryKey) (e : Nat)
    (h1 : ∀ v ∈ w.activePane.items, lookupFile w.itemFiles v.itemId ≠ some key)
    (h2 : ∀ i ∈ w.items.filter (fun i => w.aliveItems.contains i),
      lookupFile w.itemFiles i ≠ some key)
    (h3 : w.worktrees.contains key.worktreeId = true)
    (h4 : ∀ p ∈ w.loadingItems, p.fst ≠ key)
    (h5 : ∀ p ∈ w.bgLoads, p.fst < w.nextId)
    (h6 : ∀ p ∈ w.cells, p.fst < w.nextId) :
    w.openEntry key = (loadS1 w key, some { cell := w.nextId, key := key }) ∧
    (loadS1 w key).openEntry key
      = (loadS2 w key, some { cell := w.nextId, key := key }) ∧
    (loadS2 w key).bgResolve w.nextId (Except.error e) = failS3 w key e ∧
    (∀ outcome, (failS3 w key e).bgResolve w.nextId outcome = failS3 w key e) ∧
    Workspace.readCell (failS3 w key e) w.nextId = some (Except.error e) ∧
    Workspace.readCell (failS4 w key e) w.nextId = some (Except.error e) ∧
    (failS3 w key e).consumerResume { cell := w.nextId, key := key } = failS4 w key e ∧
    (failS4 w key e).consumerResume { cell := w.nextId, key := key } = failS5 w key e ∧
    (failS4 w key e).errorLog = w.errorLog ++ [LogEntry.openItemError e] ∧
    (failS5 w key e).errorLog
      = w.errorLog ++ [LogEntry.openItemError e, LogEntry.openItemError e] ∧
    (failS4 w key e).loadingItems = w.loadingItems ∧
    (failS5 w key e).loadingItems = w.loadingItems ∧
    (failS5 w key e).items = w.items.filter (fun i => w.aliveItems.contains i) ∧
    (failS5 w key e).itemFiles = w.itemFiles ∧
    (failS5 w key e).aliveItems = w.aliveItems ∧
    (failS5 w key e).activePane = w.activePane ∧
    (failS5 w key e).openEntry key
      = (loadS1 (failS5 w key e) key,
         some { cell := (failS5 w key e).nextId, key := key }) ∧
    (loadS1 (failS5 w key e) key).loadingItems
      = w.loadingItems ++ [(key, (failS5 w key e).nextId)] ∧
    (loadS1 (failS5 w key e) key).bgLoads
      = w.bgLoads ++ [((failS5 w key e).nextId, key)] := by
  have hslot0 : assocFind w.loadingItems key = none := assocFind_eq_none _ _ h4
  have e1 : w.openEntry key = (loadS1 w key, some { cell := w.nextId, key := key }) :=
    openEntry_vacant w key h1 h2 h3 hslot0
  have hslot2 : assocFind (w.loadingItems ++ [(key, w.nextId)]) key = some w.nextId := by
    rw [assocFind_append _ _ _ hslot0]
    exact assocFind_singleton_self key w.nextId
  have hbg : assocFind (w.bgLoads ++ [(w.nextId, key)]) w.nextId = some key := by
    rw [assocFind_append _ _ _ (assocFind_lt_none w.bgLoads w.nextId h5)]
    exact assocFind_singleton_self w.nextId key
  have hrem1 : assocRemove (w.loadingItems ++ [(key, w.nextId)]) key = w.loadingItems := by
    rw [assocRemove_append, assocRemove_eq_self _ _ h4, assocRemove_singleton_self]
    simp
  have hremb : assocRemove (w.bgLoads ++ [(w.nextId, key)]) w.nextId = w.bgLoads := by
    rw [assocRemove_append,
      assocRemove_eq_self _ _ (fun p hp => Nat.ne_of_lt (h5 p hp)),
      assocRemove_singleton_self]
    simp
  have e2 : (loadS1 w key).openEntry key
      = (loadS2 w key, some { cell := w.nextId, key := key }) :=
    openEntry_occupied (loadS1 w key) key w.nextId h1
      (fun i hi => h2 i (List.mem_filter.mp hi).1) h3 hslot2
  have e3 : (loadS2 w key).bgResolve w.nextId (Except.error e) = failS3 w key e := by
    rw [bgResolve_err (loadS2 w key) w.nextId key e hbg]
    apply Workspace.ext
    · rfl
    · rfl
    · rfl
    · rfl
    · rfl
    · exact cellsMap_fresh w.cells w.nextId (Except.error e) h6
    · exact hremb
    · rfl
    · rfl
    · rfl
  have hread3 : Workspace.readCell (failS3 w key e) w.nextId
      = some (Except.error e) :=
    readCell_of_cells (failS3 w key e) w.cells w.nextId (Except.error e) rfl h6
  have hread4 : Workspace.readCell (failS4 w key e) w.nextId
      = some (Except.error e) :=
    readCell_of_cells (failS4 w key e) w.cells w.nextId (Except.error e) rfl h6
  have e4 : (failS3 w key e).consumerResume { cell := w.nextId, key := key }
      = failS4 w key e := by
    rw [consumerResume_err (failS3 w key e) { cell := w.nextId, key := key } e hread3]
    apply Workspace.ext
    · rfl
    · rfl
    · rfl
    · rfl
    · exact hrem1
    · rfl
    · rfl
    · rfl
    · rfl
    · rfl
  have e5 : (failS4 w key e).consumerResume { cell := w.nextId, key := key }
      = failS5 w key e := by
    rw [consumerResume_err (failS4 w key e) { cell := w.nextId, key := key } e hread4]
    apply Workspace.ext
    · rfl
    · rfl
    · rfl
    · rfl
    · exact assocRemove_eq_self _ _ h4
    · rfl
    · rfl
    · rfl
    · exact List.append_assoc _ _ _
    · rfl
  have e6 : (failS5 w key e).openEntry key
      = (loadS1 (failS5 w key e) key,
         some { cell := (failS5 w key e).nextId, key := key }) :=
    openEntry_vacant (failS5 w key e) key h1
      (fun i hi => h2 i (List.mem_filter.mp (List.mem_filter.mp hi).1).1) h3 hslot0
  refine ⟨e1, e2, e3, ?_, hread3, hread4, e4, e5, rfl, rfl, rfl, rfl,
    filter_contains_idem w.items w.aliveItems, rfl, rfl, rfl, e6, rfl, rfl⟩
  intro outcome
  exact bgResolve_missing _ _ outcome (assocFind_lt_none w.bgLoads w.nextId h5)

/-- C10: `Workspace::add_item_view` appends the view to the current active
pane and then immediately activates it: after the call, the view is the
last pane item and the active pane reports it as the active item. -/
theorem C10_addItemView_activates (w : Workspace) (view : ItemViewData) :
    (w.addItemView view).activePane.items = w.activePane.items ++ [view] ∧
    (w.addItemView view).activePane.activeIndex = w.activePane.items.length ∧
    Pane.activeItem (w.addItemView view).activePane = some view := by
  refine ⟨rfl, rfl, ?_⟩
  show (w.activePane.items ++ [view])[w.activePane.items.length]? = some view
  exact concat_getElem?_length _ _

/-! ## Save active item (Workspace::save_active_item) -/

/-- The user-visible prompts `save_active_item` can raise. -/
inductive SavePrompt where
  | newPath
  | conflictOverwrite
deriving Repr, DecidableEq

/-- The facets of the active item view consulted by `save_active_item`:
`item.entry_id(cx)` and `item.has_conflict(cx)`. -/
structure ActiveItemState where
  entryId : Option EntryKey
  hasConflict : Bool
deriving Repr, DecidableEq

/-- The collaborator interfaces `save_active_item` drives, resolved ahead
of time: the answer of the destination-path prompt (`None` when
cancelled), the File Handle that `file_for_path` resolves the chosen path
to, the index chosen in the Overwrite/Cancel prompt, and the outcome of
the item save task. -/
structure SaveEnv where
  pathAnswer : Option String
  resolvedFile : Nat
  conflictAnswer : Nat
  saveResult : Except Nat Unit
deriving Repr

/-- The effect trace of one `save_active_item` call: the prompts raised,
the `item.save` invocations issued (with the optional file handle passed),
and the error codes logged by `error!`. The trace has no error channel:
the source function returns unit and only logs failures. -/
structure SaveOutcome where
  prompts : List SavePrompt
  saveCalls : List (Option Nat)
  loggedErrors : List Nat
deriving Repr, DecidableEq

/-- `Workspace::save_active_item`: no active item does nothing; an item
with no entry id prompts for a new path and, if one is chosen, resolves it
and saves to the resolved file; an item with a conflict prompts
Overwrite/Cancel and saves (with no file handle) only on answer 0;
otherwise the item is saved directly. Every save failure is logged and
never propagated. -/
def saveActiveItem (item : Option ActiveItemState) (env : SaveEnv) : SaveOutcome :=
  match item with
  | none => { prompts := [], saveCalls := [], loggedErrors := [] }
  | some it =>
    match it.entryId with
    | none =>
      match env.pathAnswer with
      | some _path =>
        { prompts := [SavePrompt.newPath],
          saveCalls := [some env.resolvedFile],
          loggedErrors :=
            match env.saveResult with
            | Except.ok _ => []
            | Except.error e => [e] }
      | none => { prompts := [SavePrompt.newPath], saveCalls := [], loggedErrors := [] }
    | some _ =>
      if it.hasConflict then
        if env.conflictAnswer = 0 then
          { prompts := [SavePrompt.conflictOverwrite],
            saveCalls := [none],
            loggedErrors :=
              match env.saveResult with
              | Except.ok _ => []
              | Except.error e => [e] }
        else
          { prompts := [SavePrompt.conflictOverwrite], saveCalls := [],
            loggedErrors := [] }
      else
        { prompts := [], saveCalls := [none],
          loggedErrors :=
            match env.saveResult with
            | Except.ok _ => []
            | Except.error e => [e] }

/-- C9: `save_active_item` on an unbound item raises the destination-path
prompt exactly once and then saves to the resolved file (no save when the
prompt is cancelled); on a bound item it never raises the path prompt; a
bound item with a conflict is gated on the Overwrite/Cancel prompt and is
saved — with its already-bound file — only when Overwrite (answer 0) is
chosen; a bound item without a conflict is saved directly with no prompt;
in every branch a save failure is only logged and a successful save logs
nothing, the function having no error channel at all. -/
theorem C9_save_branches (it : ActiveItemState) (env : SaveEnv) :
    (it.entryId = none →
      (saveActiveItem (some it) env).prompts = [SavePrompt.newPath] ∧
      (∀ p, env.pathAnswer = some p →
        (saveActiveItem (some it) env).saveCalls = [some env.resolvedFile]) ∧
      (env.pathAnswer = none → (saveActiveItem (some it) env).saveCalls = [])) ∧
    (∀ ek, it.entryId = some ek →
      SavePrompt.newPath ∉ (saveActiveItem (some it) env).prompts) ∧
    (∀ ek, it.entryId = some ek → it.hasConflict = true →
      (saveActiveItem (some it) env).prompts = [SavePrompt.conflictOverwrite] ∧
      ((saveActiveItem (some it) env).saveCalls ≠ [] ↔ env.conflictAnswer = 0) ∧
      (env.conflictAnswer = 0 → (saveActiveItem (some it) env).saveCalls = [none])) ∧
    (∀ ek, it.entryId = some ek → it.hasConflict = false →
      (saveActiveItem (some it) env).prompts = [] ∧
      (saveActiveItem (some it) env).saveCalls = [none]) ∧
    (∀ e, env.saveResult = Except.error e →
      (saveActiveItem (some it) env).saveCalls ≠ [] →
      (saveActiveItem (some it) env).loggedErrors = [e]) ∧
    (env.saveResult = Except.ok () →
      (saveActiveItem (some it) env).loggedErrors = []) ∧
    saveActiveItem none env = { prompts := [], saveCalls := [], loggedErrors := [] } := by
  refine ⟨?_, ?_, ?_, ?_, ?_, ?_, rfl⟩
  · intro h
    cases hp : env.pathAnswer with
    | some p =>
      refine ⟨by simp [saveActiveItem, h, hp], ?_, by simp [hp]⟩
      intro q hq
      simp [saveActiveItem, h, hp]
    | none =>
      refine ⟨by simp [saveActiveItem, h, hp], ?_, by simp [saveActiveItem, h, hp]⟩
      intro q hq
      simp at hq
  · intro ek h
    by_cases hc : it.hasConflict
    · by_cases ha : env.conflictAnswer = 0
      · simp [saveActiveItem, h, hc, ha]
      · simp [saveActiveItem, h, hc, ha]
    · simp [saveActiveItem, h, hc]
  · intro ek h hc
    by_cases ha : env.conflictAnswer = 0
    · refine ⟨by simp [saveActiveItem, h, hc, ha], ?_, by simp [saveActiveItem, h, hc, ha]⟩
      simp [saveActiveItem, h, hc, ha]
    · refine ⟨by simp [saveActiveItem, h, hc, ha], ?_, by simp [ha]⟩
      simp [saveActiveItem, h, hc, ha]
  · intro ek h hc
    exact ⟨by simp [saveActiveItem, h, hc], by simp [saveActiveItem, h, hc]⟩
  · intro e he hcall
    cases hid : it.entryId with
    | none =>
      cases hp : env.pathAnswer with
      | some p => simp [saveActiveItem, hid, hp, he]
      | none => simp [saveActiveItem, hid, hp] at hcall
    | some ek =>
      by_cases hc : it.hasConflict
      · by_cases ha : env.conflictAnswer = 0
        · simp [saveActiveItem, hid, hc, ha, he]
        · simp [saveActiveItem, hid, hc, ha] at hcall
      · simp [saveActiveItem, hid, hc, he]
  · intro hok
    cases hid : it.entryId with
    | none =>
      cases hp : env.pathAnswer with
      | some p => simp [saveActiveItem, hid, hp, hok]
      | none => simp [saveActiveItem, hid, hp]
    | some ek =>
      by_cases hc : it.hasConflict
      · by_cases ha : env.conflictAnswer = 0
        · simp [saveActiveItem, hid, hc, ha, hok]
        · simp [saveActiveItem, hid, hc, ha]
      · simp [saveActiveItem, hid, hc, hok]

/-- A concrete environment for instantiating the save branches. -/
def saveEnvExample : SaveEnv :=
  { pathAnswer := some "p", resolvedFile := 8, conflictAnswer := 0,
    saveResult := Except.ok () }

/-- Concrete instantiation of C9: an unbound item prompts for a path once
and saves to the resolved file; a bound clean item raises no prompt; a
bound conflicted item raises the Overwrite/Cancel prompt. -/
theorem C9_save_branches_witness :
    (saveActiveItem (some { entryId := none, hasConflict := false })
        saveEnvExample).prompts = [SavePrompt.newPath] ∧
    (saveActiveItem (some { entryId := none, hasConflict := false })
        saveEnvExample).saveCalls = [some 8] ∧
    (saveActiveItem (some { entryId := some keyF, hasConflict := false })
        saveEnvExample).prompts = [] ∧
    (saveActiveItem (some { entryId := some keyF, hasConflict := true })
        saveEnvExample).prompts = [SavePrompt.conflictOverwrite] :=
  ⟨((C9_save_branches { entryId := none, hasConflict := false } saveEnvExample).1 rfl).1,
   ((C9_save_branches { entryId := none, hasConflict := false } saveEnvExample).1
      rfl).2.1 "p" rfl,
   ((C9_save_branches { entryId := some keyF, hasConflict := false }
      saveEnvExample).2.2.2.1 keyF rfl rfl).1,
   ((C9_save_branches { entryId := some keyF, hasConflict := true }
      saveEnvExample).2.2.1 keyF rfl rfl).1⟩

/-! ## Pane layout tree (PaneGroup) and Workspace::remove_pane -/

/-- Modelled from the spec: the Pane Layout Tree of pane_group.rs (declared
by the source but not part of this tree) is a binary split tree: a leaf is
a pane id, an internal node is a split direction (an axis) over two
subtrees. -/
inductive PaneNode where
  | leaf (paneId : Nat)
  | node (axis : Nat) (l : PaneNode) (r : PaneNode)
deriving Repr, DecidableEq

/-- The pane ids at the leaves of a layout tree, in order. -/
def PaneNode.leaves : PaneNode → List Nat
  | PaneNode.leaf i => [i]
  | PaneNode.node _ l r => l.leaves ++ r.leaves

/-- Whether the tree is a single pane. -/
def PaneNode.isLeaf : PaneNode → Bool
  | PaneNode.leaf _ => true
  | PaneNode.node _ _ _ => false

/-- Modelled from the spec: removing a pane id removes its leaf; a parent
left with a single remaining child is replaced by that child, collapsing
upward recursively; `none` means the whole subtree vanished. -/
def PaneNode.removeLeaf (pid : Nat) : PaneNode → Option PaneNode
  | PaneNode.leaf i => if i = pid then none else some (PaneNode.leaf i)
  | PaneNode.node ax l r =>
    match PaneNode.removeLeaf pid l, PaneNode.removeLeaf pid r with
    | none, none => none
    | some l2, none => some l2
    | none, some r2 => some r2
    | some l2, some r2 => some (PaneNode.node ax l2 r2)

/-- The Pane Layout Tree of the workspace (`self.center : PaneGroup`). -/
structure PaneGroup where
  root : PaneNode
deriving Repr, DecidableEq

/-- Modelled from the spec: `PaneGroup::remove(pane_id) -> Result<bool>`
removes the leaf and collapses, and "returns whether removal actually
changed anything (false if the tree had only one pane and removal is
disallowed)"; an unknown pane id changes nothing. -/
def PaneGroup.remove (g : PaneGroup) (pid : Nat) : PaneGroup × Bool :=
  match g.root with
  | PaneNode.leaf i => ({ root := PaneNode.leaf i }, false)
  | PaneNode.node ax l r =>
    if (PaneNode.node ax l r).leaves.contains pid then
      match PaneNode.removeLeaf pid (PaneNode.node ax l r) with
      | some root2 => ({ root := root2 }, true)
      | none => ({ root := PaneNode.node ax l r }, false)
    else ({ root := PaneNode.node ax l r }, false)

/-- The pane bookkeeping of the workspace touched by `remove_pane`: the
pane list in creation order, the active pane, and the layout tree. -/
structure PaneSys where
  panes : List Nat
  activePaneId : Nat
  center : PaneGroup
deriving Repr, DecidableEq

/-- `Workspace::remove_pane`: ask the layout tree to remove the pane; only
if the tree reports an actual change, drop the pane from the pane list and
activate the most recently added remaining pane
(`self.panes.last().unwrap()`; under the pane-list/tree correspondence the
remaining list is nonempty, so the `getD` default never fires). -/
def PaneSys.removePane (s : PaneSys) (pid : Nat) : PaneSys :=
  let r := s.center.remove pid
  if r.snd then
    let panes2 := s.panes.filter (fun p => !(p == pid))
    { panes := panes2,
      activePaneId := panes2.getLast?.getD s.activePaneId,
      center := r.fst }
  else s

/-- Leaves of an optional subtree. -/
def leavesOpt : Option PaneNode → List Nat
  | none => []
  | some t => t.leaves

theorem leaves_removeLeaf (pid : Nat) (t : PaneNode) :
    leavesOpt (PaneNode.removeLeaf pid t)
      = t.leaves.filter (fun x => !(x == pid)) := by
  induction t with
  | leaf i =>
    by_cases h : i = pid
    · simp [PaneNode.removeLeaf, h, PaneNode.leaves, leavesOpt]
    · simp [PaneNode.removeLeaf, h, PaneNode.leaves, leavesOpt]
  | node ax l r ihl ihr =>
    cases hl : PaneNode.removeLeaf pid l with
    | none =>
      cases hr : PaneNode.removeLeaf pid r with
      | none =>
        rw [hl] at ihl
        rw [hr] at ihr
        simp only [leavesOpt] at ihl ihr
        simp [PaneNode.removeLeaf, hl, hr, PaneNode.leaves, leavesOpt,
          List.filter_append, ← ihl, ← ihr]
      | some r2 =>
        rw [hl] at ihl
        rw [hr] at ihr
        simp only [leavesOpt] at ihl ihr
        simp [PaneNode.removeLeaf, hl, hr, PaneNode.leaves, leavesOpt,
          List.filter_append, ← ihl, ← ihr]
    | some l2 =>
      cases hr : PaneNode.removeLeaf pid r with
      | none =>
        rw [hl] at ihl
        rw [hr] at ihr
        simp only [leavesOpt] at ihl ihr
        simp [PaneNode.removeLeaf, hl, hr, PaneNode.leaves, leavesOpt,
          List.filter_append, ← ihl, ← ihr]
      | some r2 =>
        rw [hl] at ihl
        rw [hr] at ihr
        simp only [leavesOpt] at ihl ihr
        simp [PaneNode.removeLeaf, hl, hr, PaneNode.leaves, leavesOpt,
          List.filter_append, ← ihl, ← ihr]

theorem removeLeaf_some_of (pid : Nat) (t : PaneNode)
    (hex : ∃ q ∈ t.leaves, q ≠ pid) :
    ∃ t2, PaneNode.removeLeaf pid t = some t2 ∧
      t2.leaves = t.leaves.filter (fun x => !(x == pid)) := by
  cases h : PaneNode.removeLeaf pid t with
  | none =>
    exfalso
    have hf := leaves_removeLeaf pid t
    rw [h] at hf
    simp only [leavesOpt] at hf
    obtain ⟨q, hq, hne⟩ := hex
    have hmemf : q ∈ t.leaves.filter (fun x => !(x == pid)) :=
      List.mem_filter.mpr ⟨hq, by simp [hne]⟩
    rw [← hf] at hmemf
    simp at hmemf
  | some t2 =>
    refine ⟨t2, rfl, ?_⟩
    have hf := leaves_removeLeaf pid t
    rw [h] at hf
    simpa [leavesOpt] using hf

theorem exists_other_pane (l : List Nat) (pid : Nat) (hn : l.Nodup)
    (hlen : 2 ≤ l.length) : ∃ q ∈ l, q ≠ pid := by
  match l, hn, hlen with
  | a :: b :: rest, hn, _ =>
    by_cases ha : a = pid
    · refine ⟨b, List.mem_cons_of_mem _ (List.mem_cons_self _ _), ?_⟩
      intro hb
      rw [ha] at hn
      rw [hb] at hn
      simp [List.nodup_cons] at hn
    · exact ⟨a, List.mem_cons_self _ _, ha⟩

theorem getLast?_of_ne_nil (l : List Nat) (h : l ≠ []) :
    ∃ x, l.getLast? = some x := by
  induction l with
  | nil => exact absurd rfl h
  | cons a tl ih =>
    cases htl : tl with
    | nil => exact ⟨a, rfl⟩
    | cons b rest =>
      obtain ⟨x, hx⟩ := ih (by simp [htl])
      rw [htl] at hx
      exact ⟨x, by rw [List.getLast?_cons_cons]; exact hx⟩

/-- C8: on a pane's Remove event, `remove_pane` asks the Pane Layout Tree;
if the tree is a single pane (removal of the last pane) nothing changes
and the pane list is left intact; when the tree reports an actual change,
the pane is dropped from the pane list, at least one pane remains, the
last element of the remaining list becomes active, and the tree's leaves
are exactly the remaining panes' counterparts; whenever the tree reports
no change the workspace is untouched. -/
theorem C8_remove_pane (s : PaneSys) (pid : Nat) :
    (s.center.root.isLeaf = true → s.removePane pid = s) ∧
    (s.center.root.isLeaf = false →
      s.center.root.leaves.contains pid = true →
      s.panes.Nodup → 2 ≤ s.panes.length →
      (∃ q ∈ s.center.root.leaves, q ≠ pid) →
      (s.center.remove pid).snd = true ∧
      (s.removePane pid).panes = s.panes.filter (fun p => !(p == pid)) ∧
      (s.removePane pid).panes ≠ [] ∧
      (s.removePane pid).panes.getLast? = some (s.removePane pid).activePaneId ∧
      (s.removePane pid).center.root.leaves
        = s.center.root.leaves.filter (fun x => !(x == pid))) ∧
    ((s.center.remove pid).snd = false → s.removePane pid = s) := by
  refine ⟨?_, ?_, ?_⟩
  · intro h
    cases hroot : s.center.root with
    | leaf i =>
      have hrem : s.center.remove pid = ({ root := PaneNode.leaf i }, false) := by
        unfold PaneGroup.remove
        rw [hroot]
      unfold PaneSys.removePane
      rw [hrem]
      rfl
    | node ax l r =>
      rw [hroot] at h
      simp [PaneNode.isLeaf] at h
  · intro h hmem hnodup hlen hex
    cases hroot : s.center.root with
    | leaf i =>
      rw [hroot] at h
      simp [PaneNode.isLeaf] at h
    | node ax l r =>
      rw [hroot] at hmem hex
      obtain ⟨t2, hrl, hlv⟩ := removeLeaf_some_of pid (PaneNode.node ax l r) hex
      have hrem : s.center.remove pid = ({ root := t2 }, true) := by
        have hmem2 : pid ∈ (PaneNode.node ax l r).leaves := by
          simpa using hmem
        unfold PaneGroup.remove
        rw [hroot]
        simp [hmem2, hrl]
      have hrp : s.removePane pid
          = { panes := s.panes.filter (fun p => !(p == pid)),
              activePaneId :=
                (s.panes.filter (fun p => !(p == pid))).getLast?.getD s.activePaneId,
              center := { root := t2 } } := by
        unfold PaneSys.removePane
        rw [hrem]
        rfl
      have hne : s.panes.filter (fun p => !(p == pid)) ≠ [] := by
        obtain ⟨q, hq, hqne⟩ := exists_other_pane s.panes pid hnodup hlen
        have : q ∈ s.panes.filter (fun p => !(p == pid)) :=
          List.mem_filter.mpr ⟨hq, by simp [hqne]⟩
        exact List.ne_nil_of_mem this
      obtain ⟨x, hx⟩ := getLast?_of_ne_nil _ hne
      refine ⟨by rw [hrem], by rw [hrp], by rw [hrp]; exact hne, ?_, ?_⟩
      · rw [hrp]
        show (s.panes.filter (fun p => !(p == pid))).getLast?
          = some ((s.panes.filter (fun p => !(p == pid))).getLast?.getD s.activePaneId)
        rw [hx]
        rfl
      · rw [hrp]
        exact hlv
  · intro h
    simp only [PaneSys.removePane]
    rw [h]
    rfl

/-- A two-pane split layout used to instantiate C8. -/
def paneSysExample : PaneSys :=
  { panes := [1, 2], activePaneId := 1,
    center := { root := PaneNode.node 0 (PaneNode.leaf 1) (PaneNode.leaf 2) } }

/-- A single-pane layout used to instantiate C8. -/
def paneSysSolo : PaneSys :=
  { panes := [1], activePaneId := 1, center := { root := PaneNode.leaf 1 } }

/-- Concrete instantiation of C8: removing pane 1 from a two-pane split
drops it from the pane list and activates pane 2; removing the only pane
of a single-leaf tree is rejected and changes nothing. -/
theorem C8_remove_pane_witness :
    (paneSysExample.removePane 1).panes = [2] ∧
    (paneSysExample.removePane 1).panes.getLast?
      = some (paneSysExample.removePane 1).activePaneId ∧
    paneSysSolo.removePane 1 = paneSysSolo := by
  refine ⟨?_, ?_, ?_⟩
  · exact ((C8_remove_pane paneSysExample 1).2.1 rfl (by decide) (by decide)
      (by decide) (by decide)).2.1
  · exact ((C8_remove_pane paneSysExample 1).2.1 rfl (by decide) (by decide)
      (by decide) (by decide)).2.2.2.1
  · exact (C8_remove_pane paneSysSolo 1).1 rfl

/-- Concrete instantiation of C1: two concurrent opens of `keyF` on the
base workspace share cell 10, and after resolution the pane holds two
views (ids 12 and 13) of the single item 11 while the load map is empty
again. -/
theorem C1_single_flight_witness :
    loadScenarioBase.openEntry keyF
      = (loadS1 loadScenarioBase keyF, some { cell := 10, key := keyF }) ∧
    (loadS5 loadScenarioBase keyF).activePane.items
      = [{ viewId := 12, itemId := 11 }, { viewId := 13, itemId := 11 }] ∧
    (loadS5 loadScenarioBase keyF).loadingItems = [] := by
  have h := C1_single_flight loadScenarioBase keyF (by decide) (by decide) (by decide)
    (by decide) (by decide) (by decide)
  exact ⟨h.1, h.2.2.2.2.2.2.2.2.2.2.2.1, h.2.2.2.2.2.2.2.2.2.2.2.2.2.1⟩

/-- Concrete instantiation of C7: a failing load for `keyF` logs the
identical error for both waiters, discards the slot, and a retry starts a
fresh load on cell 11. -/
theorem C7_load_failure_witness :
    (failS5 loadScenarioBase keyF 42).errorLog
      = [LogEntry.openItemError 42, LogEntry.openItemError 42] ∧
    (failS5 loadScenarioBase keyF 42).loadingItems = [] ∧
    (failS5 loadScenarioBase keyF 42).openEntry keyF
      = (loadS1 (failS5 loadScenarioBase keyF 42) keyF,
         some { cell := 11, key := keyF }) := by
  have h := C7_load_failure loadScenarioBase keyF 42 (by decide) (by decide) (by decide)
    (by decide) (by decide) (by decide)
  exact ⟨h.2.2.2.2.2.2.2.2.2.1, h.2.2.2.2.2.2.2.2.2.2.2.1,
    h.2.2.2.2.2.2.2.2.2.2.2.2.2.2.2.2.1⟩

/-- A concrete workspace holding a resolved cell 3 for item 5, used to
instantiate C2. -/
def consumeExample : Workspace :=
  { worktrees := [1], items := [], itemFiles := [(5, some keyF)], aliveItems := [5],
    loadingItems := [(keyF, 3)], cells := [(3, some (Except.ok 5))], bgLoads := [],
    activePane := { items := [], activeIndex := 0 }, errorLog := [], nextId := 20 }

/-- Concrete instantiation of the amended C2: both consumers of cell 3
push item 5 onto the registry and attach a view to it. -/
theorem C2_amended_witness :
    (consumeExample.consumerResume { cell := 3, key := keyF }).items = [5] ∧
    ((consumeExample.consumerResume { cell := 3, key := keyF }).consumerResume
        { cell := 3, key := keyF }).items = [5, 5] ∧
    ((consumeExample.consumerResume { cell := 3, key := keyF }).consumerResume
        { cell := 3, key := keyF }).activePane.items
      = [{ viewId := 20, itemId := 5 }, { viewId := 21, itemId := 5 }] := by
  have h := C2_amended_every_consumer_inserts consumeExample 3 keyF 5 rfl
  exact ⟨h.1, h.2.1, h.2.2⟩

/-- A concrete workspace whose active pane shows a view of item 3 bound to
`keyF`. -/
def paneHitExample : Workspace :=
  { worktrees := [1], items := [3], itemFiles := [(3, some keyF)], aliveItems := [3],
    loadingItems := [], cells := [], bgLoads := [],
    activePane := { items := [{ viewId := 9, itemId := 3 }], activeIndex := 0 },
    errorLog := [], nextId := 10 }

/-- Concrete instantiation of C5: reopening an entry already shown in the
active pane returns no task and leaves every collection unchanged. -/
theorem C5_active_pane_hit_witness :
    (paneHitExample.openEntry keyF).snd = none ∧
    (paneHitExample.openEntry keyF).fst.activePane.items
      = paneHitExample.activePane.items ∧
    (paneHitExample.openEntry keyF).fst.loadingItems = [] ∧
    (paneHitExample.openEntry keyF).fst.nextId = 10 := by
  have h := C5_active_pane_hit paneHitExample keyF (by decide)
  exact ⟨h.1, h.2.2.2.2.2.2.2.1, h.2.1, h.2.2.2.2.2.2.1⟩

/-- A concrete workspace with a dead registry entry (4) and a live item 3
bound to `keyF`, not visible in the pane. -/
def registryHitExample : Workspace :=
  { worktrees := [1], items := [4, 3],
    itemFiles := [(3, some keyF), (4, some { worktreeId := 1, path := "x" })],
    aliveItems := [3], loadingItems := [], cells := [], bgLoads := [],
    activePane := { items := [], activeIndex := 0 }, errorLog := [], nextId := 10 }

/-- Concrete instantiation of C6: opening `keyF` attaches a view to the
live item 3 synchronously, prunes the dead entry 4, and starts no load. -/
theorem C6_registry_hit_witness :
    (registryHitExample.openEntry keyF).snd = none ∧
    (registryHitExample.openEntry keyF).fst.items = [3] ∧
    (registryHitExample.openEntry keyF).fst.loadingItems = [] ∧
    (registryHitExample.openEntry keyF).fst.nextId = 11 := by
  have h := C6_registry_hit registryHitExample keyF (by decide) (by decide)
  exact ⟨h.1, h.2.2.2.2.1, h.2.1, h.2.2.2.2.2.2.1⟩

/-- Concrete instantiation of the amended C4: a request without a sender
id is rejected with an error before any state change, and `open_entry`
with an unknown worktree id logs the failure while returning `none`. -/
theorem C4_amended_error_surfacing_witness :
    openFile (fun _ _ => none) { sharedWorktrees := [], sharedFiles := [] }
        { worktreeId := 3, path := "p", originalSenderId := none }
      = Except.error "missing original sender id" ∧
    closeFile { sharedWorktrees := [], sharedFiles := [] }
        { id := 3, originalSenderId := none }
      = Except.error "missing original sender id" ∧
    (loadScenarioBase.openEntry { worktreeId := 7, path := "g" }).snd = none ∧
    (loadScenarioBase.openEntry { worktreeId := 7, path := "g" }).fst.errorLog
      = [LogEntry.worktreeNotFound 7] := by
  refine ⟨C4_amended_error_surfacing.1 _ _ _ rfl,
    C4_amended_error_surfacing.2.2.1 _ _ rfl, ?_, ?_⟩
  · exact (C4_amended_error_surfacing.2.2.2 loadScenarioBase
      { worktreeId := 7, path := "g" } (by decide) (by decide) (by decide)).1
  · exact (C4_amended_error_surfacing.2.2.2 loadScenarioBase
      { worktreeId := 7, path := "g" } (by decide) (by decide) (by decide)).2.1

end Zed
